import Mathlib

/-!
# Verification of the idle-self-driving simulation core

A shallow embedding, in Lean 4, of the numeric core of the idle-self-driving
repository: the feed-forward `Network` (src/model/Network.ts), the ray-cast
`Sensor.read` (src/model/Sensor.ts), and the `Car` physics / lap state machine
and generational trainer (src/model/Car.ts).

JavaScript numbers are modelled as exact rationals (`ℚ`): every JS double is a
rational, and none of the verified properties depend on rounding.  The
transcendental library calls (`Math.cos`, `Math.sin`, `Math.hypot`) are passed
in as function parameters, so every theorem holds for the actual functions.
`Math.random` / the Gaussian sampler are likewise passed in as parameters.
A second, IEEE-style value domain (`JsNum`, with NaN and infinities) is used
for the error-handling properties about non-finite inputs.
-/

namespace IdleSelfDriving

/-- Model of `clamp` from src/model/Settings.ts (and src/utils/clamp):
`if (isNaN(n)) return min; else if (n < min) return min;
 else if (n > max) return max; else return n;`
Over `ℚ` the NaN branch is vacuous (see `JsNum.clamp` below for the
NaN-aware version). -/
def clamp (n min max : ℚ) : ℚ :=
  if n < min then min else if n > max then max else n

theorem clamp_mem (n min max : ℚ) (h : min ≤ max) :
    min ≤ clamp n min max ∧ clamp n min max ≤ max := by
  unfold clamp
  split_ifs <;> constructor <;> linarith

/-- Auxiliary: a `List.all` call only depends on the predicate's values on the list. -/
theorem list_all_congr {α : Type} (l : List α) (f g : α → Bool)
    (h : ∀ x ∈ l, f x = g x) : l.all f = l.all g := by
  induction l with
  | nil => rfl
  | cons a t ih =>
    simp only [List.all_cons, h a (by simp)]
    rw [ih fun x hx => h x (by simp [hx])]

/-! ## Network (src/model/Network.ts) -/

/-- Model of `Network.Configuration`: input count, hidden layer sizes, output count and
the 3-dimensional weight tensor `weights[layer][neuron][input]`. -/
structure NetworkConfig where
  input : ℕ
  hidden : List ℕ
  output : ℕ
  weights : List (List (List ℚ))
deriving Repr, DecidableEq

namespace Network

/-- Model of `layer_in` for layer `i`: `i === 0 ? input : hidden[i - 1]`. -/
def layerInSize (cfg : NetworkConfig) (i : ℕ) : ℕ :=
  if i = 0 then cfg.input else cfg.hidden.getD (i - 1) 0

/-- Model of `layer_out` for layer `i`: `i === hidden.length ? output : hidden[i]`. -/
def layerOutSize (cfg : NetworkConfig) (i : ℕ) : ℕ :=
  if i = cfg.hidden.length then cfg.output else cfg.hidden.getD i 0

/-- Model of `Network.validate()` as a boolean check (the source throws on failure;
`true` here means "does not throw"):
input ≥ 1, output ≥ 1, `weights.length == hidden.length + 1`, for every layer
`weights[i].length == layer_out` and every neuron row has `layer_in + 1`
columns.  (The source's `hidden.length < 0` test is vacuous.) -/
def validate (cfg : NetworkConfig) : Bool :=
  1 ≤ cfg.input &&
  1 ≤ cfg.output &&
  cfg.weights.length = cfg.hidden.length + 1 &&
  (List.range cfg.weights.length).all fun i =>
    ((cfg.weights.getD i []).length = layerOutSize cfg i) &&
    (cfg.weights.getD i []).all fun row => row.length = layerInSize cfg i + 1

/-- Model of `Network.activation`: the saturating linear unit
`value < -1 ? -1 : value > 1 ? 1 : value`. -/
def activation (value : ℚ) : ℚ :=
  if value < -1 then -1 else if value > 1 then 1 else value

/-- The neuron sum exactly as `Network.eval` computes it:
`sum = weights[layer][neuron][layer_in.length - 1]` ("bias"), then
`for (idx_in = 0; idx_in < layer_in.length - 1; idx_in++)
   sum += layer_in[idx_in] * weights[layer][neuron][idx_in]`.
Note the source indexes the bias at `layer_in.length - 1` and stops the sum
one short of `layer_in.length`. -/
def neuronSum (layer_in row : List ℚ) : ℚ :=
  (List.range (layer_in.length - 1)).foldl
    (fun sum idx_in => sum + layer_in.getD idx_in 0 * row.getD idx_in 0)
    (row.getD (layer_in.length - 1) 0)

/-- One layer of `Network.eval`: each neuron row produces
`activation (neuronSum layer_in row)`. -/
def evalLayer (layer_in : List ℚ) (layer : List (List ℚ)) : List ℚ :=
  layer.map fun row => activation (neuronSum layer_in row)

/-- Model of `Network.eval(input)`: fold the layers, each layer's output feeding the
next; the final layer's output is returned. -/
def eval (cfg : NetworkConfig) (input : List ℚ) : List ℚ :=
  cfg.weights.foldl evalLayer input

/-- Model of `Network.randomStep(stdev)`: every weight `w` is replaced by
`gaussian(w, stdev)`; the Gaussian sampler is passed in as `g`. -/
def randomStep (g : ℚ → ℚ → ℚ) (stdev : ℚ) (cfg : NetworkConfig) :
    NetworkConfig :=
  { cfg with
    weights := cfg.weights.map fun layer =>
      layer.map fun neuron => neuron.map fun w => g w stdev }

/-- The spec's evaluation formula, modelled from the spec's words (for
comparison with the source's `eval`): "for layer i, for neuron j,
`sum = bias_j + Σ_k input_k * weight[i][j][k]`" where "the last index per
neuron is the bias term": bias is the last entry of the row, and the sum
ranges over the whole input vector. -/
def specNeuronSum (layer_in row : List ℚ) : ℚ :=
  (List.range layer_in.length).foldl
    (fun sum k => sum + layer_in.getD k 0 * row.getD k 0)
    (row.getD (row.length - 1) 0)

/-- One layer of the spec's evaluation formula. -/
def specEvalLayer (layer_in : List ℚ) (layer : List (List ℚ)) : List ℚ :=
  layer.map fun row => activation (specNeuronSum layer_in row)

/-- The spec's `eval`, layer by layer. -/
def specEval (cfg : NetworkConfig) (input : List ℚ) : List ℚ :=
  cfg.weights.foldl specEvalLayer input

/-- The shape of the weight tensor: per layer, the list of neuron-row
lengths. -/
def shape (cfg : NetworkConfig) : List (List ℕ) :=
  cfg.weights.map fun layer => layer.map List.length

/-- Helper: `validate` seen as a function of the tensor shape only. -/
def validateOfShape (input : ℕ) (hidden : List ℕ) (output : ℕ)
    (sh : List (List ℕ)) : Bool :=
  1 ≤ input &&
  1 ≤ output &&
  sh.length = hidden.length + 1 &&
  (List.range sh.length).all fun i =>
    ((sh.getD i []).length =
      (if i = hidden.length then output else hidden.getD i 0)) &&
    (sh.getD i []).all fun len =>
      len = (if i = 0 then input else hidden.getD (i - 1) 0) + 1

theorem all_length_map (l : List (List ℚ)) (p : ℕ → Bool) :
    ((l.map List.length).all p) = l.all fun row => p row.length := by
  induction l with
  | nil => rfl
  | cons a t ih => simp [List.all_cons, ih]

theorem shape_getD (cfg : NetworkConfig) (i : ℕ) :
    (shape cfg).getD i [] = (cfg.weights.getD i []).map List.length := by
  simpa [shape] using
    List.getD_map (l := cfg.weights) (d := []) (n := i) (List.map List.length)

theorem validate_eq_ofShape (cfg : NetworkConfig) :
    validate cfg = validateOfShape cfg.input cfg.hidden cfg.output (shape cfg) := by
  unfold validate validateOfShape layerInSize layerOutSize
  have hlen : (shape cfg).length = cfg.weights.length := by
    simp [shape]
  rw [hlen]
  congr 1
  apply list_all_congr
  intro i _
  rw [shape_getD, all_length_map]
  simp [List.length_map]

theorem shape_randomStep (g : ℚ → ℚ → ℚ) (stdev : ℚ) (cfg : NetworkConfig) :
    shape (randomStep g stdev cfg) = shape cfg := by
  simp [shape, randomStep, List.map_map, Function.comp_def]

end Network

/-- C1: the source's `eval` does not compute the spec's
`sum = bias_j + Σ_k input_k * weight[i][j][k]` with the bias as the last entry
of the neuron row.  On the valid network `input = 1`, `hidden = []`,
`output = 1`, `weights = [[[1/2, 1/4]]]` (one neuron, weight `1/2`, bias
`1/4`), the source evaluates input `[1]` to `[1/2]` — it reads the "bias" at
index `layer_in.length - 1 = 0` (the weight slot), skips the only input term,
and never reads the allocated bias slot — whereas the spec's formula gives
`activation (1/4 + 1 * (1/2)) = 3/4`. -/
theorem network_eval_bias_off_by_one :
    Network.validate ⟨1, [], 1, [[[1/2, 1/4]]]⟩ = true ∧
    Network.eval ⟨1, [], 1, [[[1/2, 1/4]]]⟩ [1] = [1/2] ∧
    Network.specEval ⟨1, [], 1, [[[1/2, 1/4]]]⟩ [1] = [3/4] ∧
    Network.eval ⟨1, [], 1, [[[1/2, 1/4]]]⟩ [1] ≠
      Network.specEval ⟨1, [], 1, [[[1/2, 1/4]]]⟩ [1] := by
  have h1 : Network.eval ⟨1, [], 1, [[[1/2, 1/4]]]⟩ [1] = [1/2] := by
    norm_num [Network.eval, Network.evalLayer, Network.neuronSum,
      Network.activation, List.getD]
  have h2 : Network.specEval ⟨1, [], 1, [[[1/2, 1/4]]]⟩ [1] = [3/4] := by
    norm_num [Network.specEval, Network.specEvalLayer, Network.specNeuronSum,
      Network.activation, List.getD, List.range_succ]
  refine ⟨by decide, h1, h2, ?_⟩
  rw [h1, h2]
  norm_num

/-- C10: `randomStep` preserves the input count, output count, hidden sizes
and the whole weight-tensor shape, so its result passes the constructor's
`validate` whenever the source network does. -/
theorem randomStep_preserves_shape (g : ℚ → ℚ → ℚ) (stdev : ℚ)
    (cfg : NetworkConfig) (h : Network.validate cfg = true) :
    Network.validate (Network.randomStep g stdev cfg) = true ∧
    (Network.randomStep g stdev cfg).input = cfg.input ∧
    (Network.randomStep g stdev cfg).hidden = cfg.hidden ∧
    (Network.randomStep g stdev cfg).output = cfg.output ∧
    Network.shape (Network.randomStep g stdev cfg) = Network.shape cfg := by
  refine ⟨?_, rfl, rfl, rfl, Network.shape_randomStep g stdev cfg⟩
  rw [Network.validate_eq_ofShape, Network.shape_randomStep g stdev cfg]
  rw [show (Network.randomStep g stdev cfg).input = cfg.input from rfl]
  rw [show (Network.randomStep g stdev cfg).hidden = cfg.hidden from rfl]
  rw [show (Network.randomStep g stdev cfg).output = cfg.output from rfl]
  rw [← Network.validate_eq_ofShape]
  exact h

/-- Witness for C10 at a concrete valid two-layer network. -/
theorem randomStep_preserves_shape_witness :
    Network.validate ⟨2, [1], 1, [[[0, 0, 1]], [[2, 3]]]⟩ = true ∧
    (Network.validate
        (Network.randomStep (fun w _ => w + 1) 5 ⟨2, [1], 1, [[[0, 0, 1]], [[2, 3]]]⟩) = true ∧
      (Network.randomStep (fun w _ => w + 1) 5 ⟨2, [1], 1, [[[0, 0, 1]], [[2, 3]]]⟩).input =
        (⟨2, [1], 1, [[[0, 0, 1]], [[2, 3]]]⟩ : NetworkConfig).input ∧
      (Network.randomStep (fun w _ => w + 1) 5 ⟨2, [1], 1, [[[0, 0, 1]], [[2, 3]]]⟩).hidden =
        (⟨2, [1], 1, [[[0, 0, 1]], [[2, 3]]]⟩ : NetworkConfig).hidden ∧
      (Network.randomStep (fun w _ => w + 1) 5 ⟨2, [1], 1, [[[0, 0, 1]], [[2, 3]]]⟩).output =
        (⟨2, [1], 1, [[[0, 0, 1]], [[2, 3]]]⟩ : NetworkConfig).output ∧
      Network.shape (Network.randomStep (fun w _ => w + 1) 5 ⟨2, [1], 1, [[[0, 0, 1]], [[2, 3]]]⟩) =
        Network.shape ⟨2, [1], 1, [[[0, 0, 1]], [[2, 3]]]⟩) :=
  ⟨by decide, randomStep_preserves_shape (fun w _ => w + 1) 5
    ⟨2, [1], 1, [[[0, 0, 1]], [[2, 3]]]⟩ (by decide)⟩

/-! ### `eval` over raw JS values

The `ℚ` embedding above is exact only while every array read of `eval` is
in range.  For an input vector of the wrong length the source reads past the
ends of its arrays: `weights[i][j][-1]` (empty input) is `undefined`, and for
an over-long input the bias read `weights[i][j][layer_in.length - 1]` runs
past the row end.  JavaScript returns `undefined` from such reads, arithmetic
on `undefined` or NaN yields NaN, and both `activation` comparisons are false
on `undefined`/NaN, which are therefore returned unclamped.  `JsVal` models
these values faithfully (finite arithmetic stays exact). -/

inductive JsVal where
  | undef : JsVal
  | nan : JsVal
  | num : ℚ → JsVal
deriving Repr, DecidableEq

namespace JsVal

/-- Model of JS `+` on the values `eval` can produce: adding `undefined` or
NaN yields NaN, finite addition is exact. -/
def add : JsVal → JsVal → JsVal
  | num a, num b => num (a + b)
  | _, _ => nan

/-- Model of JS `*` on the values `eval` can produce: multiplying by
`undefined` or NaN yields NaN. -/
def mul : JsVal → JsVal → JsVal
  | num a, num b => num (a * b)
  | _, _ => nan

/-- Model of JS `<`: false whenever either side is `undefined` or NaN. -/
def lt : JsVal → JsVal → Bool
  | num a, num b => decide (a < b)
  | _, _ => false

/-- Model of JS `>`: false whenever either side is `undefined` or NaN. -/
def gt : JsVal → JsVal → Bool
  | num a, num b => decide (a > b)
  | _, _ => false

/-- Model of a JS array read `l[i]`: any out-of-range index, negative
included, yields `undefined`. -/
def read (l : List JsVal) (i : ℤ) : JsVal :=
  if i < 0 then undef else (l.get? i.toNat).getD undef

/-- A finite value in `[-1, 1]` — what the claim asserts of every output
element.  `undefined` and NaN are not in range. -/
def inRange (v : JsVal) : Prop := ∃ q, v = num q ∧ -1 ≤ q ∧ q ≤ 1

end JsVal

namespace Network

/-- Model of `activation` over raw JS values: both comparisons are false on
`undefined` and NaN, so those are returned unchanged. -/
def activationU (v : JsVal) : JsVal :=
  if (JsVal.lt v (JsVal.num (-1))) then JsVal.num (-1)
  else if (JsVal.gt v (JsVal.num 1)) then JsVal.num 1
  else v

/-- The neuron sum of `eval` with faithful JS array reads: the bias is read
at the signed index `layer_in.length - 1` (which is `-1`, hence `undefined`,
for an empty input, and past the row end for an over-long input), then the
loop adds `layer_in[idx_in] * row[idx_in]` for `idx_in < layer_in.length - 1`. -/
def neuronSumU (layer_in row : List JsVal) : JsVal :=
  (List.range (layer_in.length - 1)).foldl
    (fun (sum : JsVal) (idx_in : ℕ) =>
      JsVal.add sum
        (JsVal.mul (JsVal.read layer_in (idx_in : ℤ)) (JsVal.read row (idx_in : ℤ))))
    (JsVal.read row ((layer_in.length : ℤ) - 1))

/-- One layer of `eval` over raw JS values. -/
def evalLayerU (layer_in : List JsVal) (layer : List (List ℚ)) : List JsVal :=
  layer.map fun row => activationU (neuronSumU layer_in (row.map JsVal.num))

/-- Model of `Network.eval(input)` over raw JS values, with faithful
out-of-range reads. -/
def evalU (cfg : NetworkConfig) (input : List JsVal) : List JsVal :=
  cfg.weights.foldl evalLayerU input

/-- The chained shape conditions under which every read of `eval` stays in
range: each layer has at least one neuron row, and each row is at least as
long as the layer's input vector. -/
def chainOK : List (List (List ℚ)) → ℕ → Prop
  | [], _ => True
  | layer :: rest, n =>
    1 ≤ layer.length ∧ (∀ row ∈ layer, n ≤ row.length) ∧
      chainOK rest layer.length

theorem read_map_num (l : List ℚ) (i : ℕ) (h : i < l.length) :
    ∃ q, JsVal.read (l.map JsVal.num) (i : ℤ) = JsVal.num q := by
  unfold JsVal.read
  rw [if_neg (by omega), show ((i : ℤ)).toNat = i from by omega]
  rcases hq : l.get? i with _ | q
  · rw [List.get?_eq_none] at hq
    omega
  · refine ⟨q, ?_⟩
    rw [List.get?_map, hq]
    rfl

theorem neuronSumU_num (lin row : List ℚ) (h1 : 1 ≤ lin.length)
    (h2 : lin.length ≤ row.length) :
    ∃ q, neuronSumU (lin.map JsVal.num) (row.map JsVal.num) = JsVal.num q := by
  unfold neuronSumU
  simp only [List.length_map]
  obtain ⟨b, hb⟩ : ∃ b,
      JsVal.read (row.map JsVal.num) ((lin.length : ℤ) - 1) = JsVal.num b := by
    rw [show ((lin.length : ℤ) - 1) = ((lin.length - 1 : ℕ) : ℤ) from by omega]
    exact read_map_num row (lin.length - 1) (by omega)
  rw [hb]
  have key : ∀ (l : List ℕ) (q0 : ℚ), (∀ i ∈ l, i < lin.length - 1) →
      ∃ q, l.foldl
        (fun (sum : JsVal) (idx_in : ℕ) => JsVal.add sum
          (JsVal.mul (JsVal.read (lin.map JsVal.num) (idx_in : ℤ))
            (JsVal.read (row.map JsVal.num) (idx_in : ℤ))))
        (JsVal.num q0) = JsVal.num q := by
    intro l
    induction l with
    | nil => exact fun q0 _ => ⟨q0, rfl⟩
    | cons i t ih =>
      intro q0 hmem
      have hi : i < lin.length - 1 := hmem i (by simp)
      obtain ⟨a, ha⟩ := read_map_num lin i (by omega)
      obtain ⟨c, hc⟩ := read_map_num row i (by omega)
      obtain ⟨q, hq⟩ := ih (q0 + a * c) (fun j hj => hmem j (by simp [hj]))
      refine ⟨q, ?_⟩
      rw [List.foldl_cons, ha, hc]
      simpa [JsVal.mul, JsVal.add] using hq
  exact key (List.range (lin.length - 1)) b (fun i hi => List.mem_range.mp hi)

theorem activationU_num_inRange (q : ℚ) :
    JsVal.inRange (activationU (JsVal.num q)) := by
  unfold activationU JsVal.inRange
  simp only [JsVal.lt, JsVal.gt, decide_eq_true_eq]
  split_ifs with hq1 hq2
  · exact ⟨-1, rfl, by norm_num⟩
  · exact ⟨1, rfl, by norm_num⟩
  · exact ⟨q, rfl, by linarith [not_lt.mp hq1], by linarith [not_lt.mp hq2]⟩

theorem exists_map_num (w : List (List ℚ)) (f : List ℚ → JsVal)
    (h : ∀ x ∈ w, ∃ q, f x = JsVal.num q) :
    ∃ l' : List ℚ, w.map f = l'.map JsVal.num ∧ l'.length = w.length := by
  induction w with
  | nil => exact ⟨[], rfl, rfl⟩
  | cons x t ih =>
    obtain ⟨q, hq⟩ := h x (by simp)
    obtain ⟨l', hl', hlen⟩ := ih (fun y hy => h y (by simp [hy]))
    exact ⟨q :: l', by simp [hq, hl'], by simp [hlen]⟩

/-- Under the chained shape conditions every element of the fold over the
layers is a finite value in `[-1, 1]`. -/
theorem evalU_chain_bounded :
    ∀ (ws : List (List (List ℚ))) (lin : List ℚ), ws ≠ [] →
      1 ≤ lin.length → chainOK ws lin.length →
      ∀ v ∈ ws.foldl evalLayerU (lin.map JsVal.num), JsVal.inRange v
  | [], _, h, _, _ => absurd rfl h
  | [w], lin, _, hlen, hchain => by
    obtain ⟨_, hw2, _⟩ := hchain
    intro v hv
    simp only [List.foldl_cons, List.foldl_nil, evalLayerU, List.mem_map] at hv
    obtain ⟨row, hrow, hveq⟩ := hv
    obtain ⟨q, hq⟩ := neuronSumU_num lin row hlen (hw2 row hrow)
    rw [← hveq, hq]
    exact activationU_num_inRange q
  | w :: w' :: rest, lin, _, hlen, hchain => by
    obtain ⟨hw1, hw2, hrest⟩ := hchain
    have hnums : ∀ row ∈ w, ∃ q,
        activationU (neuronSumU (lin.map JsVal.num) (row.map JsVal.num)) =
          JsVal.num q := by
      intro row hrow
      obtain ⟨q, hq⟩ := neuronSumU_num lin row hlen (hw2 row hrow)
      rw [hq]
      obtain ⟨q', hq', _, _⟩ := activationU_num_inRange q
      exact ⟨q', hq'⟩
    obtain ⟨l', hl', hlen'⟩ := exists_map_num w _ hnums
    intro v hv
    rw [List.foldl_cons,
      show evalLayerU (lin.map JsVal.num) w = l'.map JsVal.num from hl'] at hv
    exact evalU_chain_bounded (w' :: rest) l' (by simp)
      (by omega) (by rw [hlen']; exact hrest) v hv

theorem chainOK_of_indexed :
    ∀ (ws : List (List (List ℚ))) (n : ℕ),
      (∀ i, i < ws.length → 1 ≤ (ws.getD i []).length) →
      (∀ row ∈ ws.getD 0 [], n ≤ row.length) →
      (∀ i, i + 1 < ws.length → ∀ row ∈ ws.getD (i + 1) [],
        (ws.getD i []).length ≤ row.length) →
      chainOK ws n
  | [], _, _, _, _ => trivial
  | w :: rest, n, hrows, hrow0, hrowi => by
    refine ⟨hrows 0 (by simp), by simpa using hrow0, ?_⟩
    apply chainOK_of_indexed rest w.length
    · intro i hi
      simpa using hrows (i + 1) (by simpa using Nat.succ_lt_succ hi)
    · intro row hrow
      rcases hrest : rest with _ | ⟨r0, rtail⟩
      · rw [hrest] at hrow
        simp at hrow
      · rw [hrest] at hrow
        have := hrowi 0 (by simp [hrest]) row (by simpa [hrest] using hrow)
        simpa using this
    · intro i hi row hrow
      have := hrowi (i + 1) (by simpa using Nat.succ_lt_succ hi) row
        (by simpa using hrow)
      simpa using this

end Network

/-- C7 (counterexample): the claim quantifies over input vectors of any
length, but on the valid network `input = 1`, `hidden = []`, `output = 1`,
`weights = [[[1, 1]]]` the source evaluates the empty input vector to
`[undefined]`, which is not in `[-1, 1]`: the bias read
`weights[0][0][layer_in.length - 1]` is `weights[0][0][-1] = undefined`, the
weight loop is empty, and `activation(undefined)` returns `undefined`
because both of its comparisons are false. -/
theorem network_eval_undefined_counterexample :
    Network.validate ⟨1, [], 1, [[[1, 1]]]⟩ = true ∧
    Network.evalU ⟨1, [], 1, [[[1, 1]]]⟩ [] = [JsVal.undef] ∧
    ¬JsVal.inRange JsVal.undef := by
  refine ⟨by decide, rfl, ?_⟩
  rintro ⟨q, hq, -, -⟩
  cases hq

/-- C7 (amended): for every valid Network whose hidden layer sizes are all at
least 1, and every finite input vector whose length is at least 1 and at most
`input + 1` (in particular the intended length `input`), every element of the
vector returned by `eval` is a finite value in `[-1, 1]`.  The length window
keeps every array read of `eval` in range, so each output element passes
through the saturating `activation`; outside it the reads yield
`undefined`/NaN, which `activation` returns unclamped. -/
theorem network_eval_output_bounded_amended (cfg : NetworkConfig)
    (hval : Network.validate cfg = true)
    (hhid : ∀ h ∈ cfg.hidden, 1 ≤ h)
    (input : List ℚ) (hlen1 : 1 ≤ input.length)
    (hlen2 : input.length ≤ cfg.input + 1) :
    ∀ v ∈ Network.evalU cfg (input.map JsVal.num), JsVal.inRange v := by
  simp only [Network.validate, Bool.and_eq_true, decide_eq_true_eq,
    List.all_eq_true, List.mem_range] at hval
  obtain ⟨⟨⟨-, hout⟩, hwlen⟩, hlayers⟩ := hval
  have hne : cfg.weights ≠ [] := by
    intro hnil
    rw [hnil] at hwlen
    simp at hwlen
  have hchain : Network.chainOK cfg.weights input.length := by
    apply Network.chainOK_of_indexed
    · intro i hi
      obtain ⟨hlen_i, -⟩ := hlayers i hi
      rw [hlen_i]
      unfold Network.layerOutSize
      split_ifs with hieq
      · exact hout
      · have hilt : i < cfg.hidden.length := by omega
        rw [cfg.hidden.getD_eq_getElem 0 hilt]
        exact hhid _ (cfg.hidden.getElem_mem hilt)
    · intro row hrow
      obtain ⟨-, hrows⟩ := hlayers 0 (by omega)
      rw [hrows row hrow]
      unfold Network.layerInSize
      simpa using hlen2
    · intro i hi1 row hrow
      obtain ⟨hlen_i, -⟩ := hlayers i (by omega)
      obtain ⟨-, hrows⟩ := hlayers (i + 1) hi1
      rw [hrows row hrow, hlen_i]
      unfold Network.layerOutSize Network.layerInSize
      rw [if_neg (by omega), if_neg (by omega)]
      simp
  exact Network.evalU_chain_bounded cfg.weights input hne hlen1 hchain

/-- Witness for the amended C7 at a concrete valid network and an in-range
input. -/
theorem network_eval_output_bounded_amended_witness :
    Network.validate ⟨2, [], 1, [[[1, 1, 1]]]⟩ = true ∧
    (∀ h ∈ ([] : List ℕ), 1 ≤ h) ∧
    1 ≤ ([1, 1] : List ℚ).length ∧ ([1, 1] : List ℚ).length ≤ 2 + 1 ∧
    ∀ v ∈ Network.evalU ⟨2, [], 1, [[[1, 1, 1]]]⟩
      (([1, 1] : List ℚ).map JsVal.num), JsVal.inRange v := by
  refine ⟨by decide, by simp, by decide, by decide, ?_⟩
  exact network_eval_output_bounded_amended ⟨2, [], 1, [[[1, 1, 1]]]⟩ (by decide)
    (by simp) [1, 1] (by decide) (by decide)

/-! ## Sensor (src/model/Sensor.ts) -/

/-- JavaScript's `~~x`: truncation toward zero. -/
def jsTrunc (q : ℚ) : ℤ := q.num.tdiv q.den

namespace Sensor

/-- Mask color tags from the `Sensor` module. -/
def available : ℕ := 0x000000

def offTrack : ℕ := 0x800000

def lapLine : ℕ := 0x008000

def vehicle : ℕ := 0x7f7f7f

/-- Model of `toCanvasColor`: "HTML colors are RGB, but canvas data is ABGR" — swap the
red and blue bytes. -/
def toCanvasColor (col : ℕ) : ℕ :=
  ((col &&& 0xff0000) >>> 16) ||| ((col &&& 0xff) <<< 16) ||| (col &&& 0xff00)

/-- Model of `Sensor.check(argb, ...sensorColors)`: OR the requested tags together,
convert to canvas byte order, and test that all those bits are set. -/
def check (argb : ℕ) (sensorColors : List ℕ) : Bool :=
  let color := toCanvasColor (sensorColors.foldl (· ||| ·) 0)
  (argb &&& color) == color

/-- A `Uint32Array` read `buffer[idx]`: out-of-range indices give `undefined`,
whose bitwise tests behave like 0 (no tag bits set). -/
def bufferGet (buffer : List ℕ) (idx : ℤ) : ℕ :=
  if idx < 0 then 0 else buffer.getD idx.toNat 0

/-- The sample the ray-cast loop of `Sensor.read` takes at integer step `r`:
`row = clamp(~~(centerY + r*dy), 0, height-1)`,
`col = clamp(~~(centerX + r*dx), 0, width-1)`,
then test `buffer[row * width + col]` for the OffTrack tag.
`dx`/`dy` are `cos(angle + heading)` / `sin(angle + heading)`; the
trigonometric functions are passed in as `cosF` / `sinF`. -/
def sampleAt (cosF sinF : ℚ → ℚ) (angle : ℚ) (buffer : List ℕ)
    (width height centerX centerY heading : ℚ) (r : ℕ) : Bool :=
  let dx := cosF (angle + heading)
  let dy := sinF (angle + heading)
  let row := clamp ((jsTrunc (centerY + r * dy) : ℤ) : ℚ) 0 (height - 1)
  let col := clamp ((jsTrunc (centerX + r * dx) : ℤ) : ℚ) 0 (width - 1)
  check (bufferGet buffer (jsTrunc (row * width + col))) [offTrack]

/-- The loop of `Sensor.read`: starting at step `r` with `fuel` iterations
left and `dist` recorded, stop at the first OffTrack sample, otherwise record
`dist = r` and continue. -/
def readGo (sample : ℕ → Bool) : ℕ → ℕ → ℚ → ℚ
  | _, 0, dist => dist
  | r, fuel + 1, dist => if sample r then dist else readGo sample (r + 1) fuel r

/-- Model of `Sensor.read(buffer, width, height, centerX, centerY, heading)`:
`for (let r = 0; r < this.range; r++) { ... }` — the loop body runs for the
`⌈range⌉` (if positive) integer values `r < range` — then
`return clamp(dist / this.range, 0, 1)`. -/
def sensorRead (cosF sinF : ℚ → ℚ) (range angle : ℚ) (buffer : List ℕ)
    (width height centerX centerY heading : ℚ) : ℚ :=
  let steps : ℕ := (⌈range⌉).toNat
  let dist := readGo (sampleAt cosF sinF angle buffer width height centerX centerY heading)
    0 steps 0
  clamp (dist / range) 0 1

/-- If no sample is OffTrack, the loop records every step and ends at the last
one. -/
theorem readGo_clear (sample : ℕ → Bool) (h : ∀ r, sample r = false) :
    ∀ (fuel r : ℕ) (dist : ℚ), readGo sample r (fuel + 1) dist = (r : ℚ) + fuel := by
  intro fuel
  induction fuel with
  | zero =>
    intro r dist
    rw [show 0 + 1 = 1 from rfl, readGo, h r]
    simp [readGo]
  | succ n ih =>
    intro r dist
    rw [readGo, h r]
    simp only [Bool.false_eq_true, if_false]
    rw [ih (r + 1) r]
    push_cast
    ring

/-- If the very first sample is OffTrack, the loop never updates `dist`. -/
theorem readGo_blockedAtZero (sample : ℕ → Bool) (h : sample 0 = true)
    (fuel : ℕ) : readGo sample 0 (fuel + 1) 0 = 0 := by
  rw [readGo, h]
  simp

/-- Reading any index of the one-pixel all-clear buffer gives 0 (no tags). -/
theorem bufferGet_zero (idx : ℤ) : bufferGet [0] idx = 0 := by
  unfold bufferGet
  split
  · rfl
  · match h : idx.toNat with
    | 0 => rfl
    | n + 1 => rfl

end Sensor

/-- C3 (amended): the ray-cast loop samples the integer distances
`0 ≤ r < range`, halts at the first OffTrack sample, and returns
`clamp(dist / range, 0, 1)` where `dist` is the last clear sampled distance;
a ray blocked at the very first sample returns 0, but a fully clear ray
returns `(⌈range⌉ - 1) / range` — the loop never samples at distance `range`
itself, so the result is strictly below 1 (0.99 for the default range 100),
not exactly 1.0. -/
theorem sensor_read_amended (cosF sinF : ℚ → ℚ) (range angle : ℚ)
    (buffer : List ℕ) (width height centerX centerY heading : ℚ)
    (hrange : 1 ≤ range) :
    ((∀ r, Sensor.sampleAt cosF sinF angle buffer width height centerX centerY heading r = false) →
      Sensor.sensorRead cosF sinF range angle buffer width height centerX centerY heading =
        clamp (((((⌈range⌉).toNat : ℚ)) - 1) / range) 0 1) ∧
    (Sensor.sampleAt cosF sinF angle buffer width height centerX centerY heading 0 = true →
      Sensor.sensorRead cosF sinF range angle buffer width height centerX centerY heading = 0) := by
  have hceil : 0 < ⌈range⌉ := Int.ceil_pos.mpr (by linarith)
  have hsteps : (⌈range⌉).toNat = ((⌈range⌉).toNat - 1) + 1 := by omega
  constructor
  · intro hclear
    unfold Sensor.sensorRead
    dsimp only
    rw [hsteps, Sensor.readGo_clear _ hclear ((⌈range⌉).toNat - 1) 0 0]
    congr 1
    push_cast
    ring
  · intro hblock
    unfold Sensor.sensorRead
    dsimp only
    rw [hsteps, Sensor.readGo_blockedAtZero _ hblock]
    rw [zero_div]
    unfold clamp
    norm_num

/-- Witness for C3's amended theorem at range 100. -/
theorem sensor_read_amended_witness :
    (1 : ℚ) ≤ 100 ∧
    (((∀ r, Sensor.sampleAt (fun _ => 1) (fun _ => 0) 0 [0] 1 1 0 0 0 r = false) →
      Sensor.sensorRead (fun _ => 1) (fun _ => 0) 100 0 [0] 1 1 0 0 0 =
        clamp ((((⌈(100 : ℚ)⌉).toNat : ℚ) - 1) / 100) 0 1) ∧
    (Sensor.sampleAt (fun _ => 1) (fun _ => 0) 0 [0] 1 1 0 0 0 0 = true →
      Sensor.sensorRead (fun _ => 1) (fun _ => 0) 100 0 [0] 1 1 0 0 0 = 0)) :=
  ⟨by norm_num,
    sensor_read_amended (fun _ => 1) (fun _ => 0) 100 0 [0] 1 1 0 0 0 (by norm_num)⟩

/-- C3 (counterexample): with the default range 100, a ray that is clear of
OffTrack samples for its entire range returns 99/100, not 1.0 as claimed. -/
theorem sensor_read_clear_ray_not_one :
    Sensor.sensorRead (fun _ => 1) (fun _ => 0) 100 0 [0] 1 1 0 0 0 = 99 / 100 ∧
    Sensor.sensorRead (fun _ => 1) (fun _ => 0) 100 0 [0] 1 1 0 0 0 ≠ 1 := by
  have hclear : ∀ r,
      Sensor.sampleAt (fun _ => 1) (fun _ => 0) 0 [0] 1 1 0 0 0 r = false := by
    intro r
    unfold Sensor.sampleAt
    dsimp only
    rw [Sensor.bufferGet_zero]
    decide
  have hceil : ⌈(100 : ℚ)⌉ = 100 := by norm_num
  have hsteps : (⌈(100 : ℚ)⌉).toNat = 99 + 1 := by rw [hceil]; rfl
  have hval : Sensor.sensorRead (fun _ => 1) (fun _ => 0) 100 0 [0] 1 1 0 0 0 = 99 / 100 := by
    unfold Sensor.sensorRead
    dsimp only
    rw [hsteps, Sensor.readGo_clear _ hclear 99 0 0]
    unfold clamp
    norm_num
  exact ⟨hval, by rw [hval]; norm_num⟩

/-! ## Car state (src/model/Car.ts) -/

/-- Model of `Math.PI` — the IEEE-754 double closest to π, an exact rational
(884279719003555 / 2^48). -/
def jsPI : ℚ := 884279719003555 / 281474976710656

/-- Model of `Math.sign`. -/
def jsSign (q : ℚ) : ℚ := if q > 0 then 1 else if q < 0 then -1 else 0

/-- A loaded `Track`: name, canvas dimensions, road thickness, starting
point/direction and the derived starting angle.  Tracks are identified by
name (the registry holds one instance per name, so the source's reference
comparison `car.track === track` coincides with name equality). -/
structure TrackT where
  name : String
  width : ℚ
  height : ℚ
  roadThickness : ℚ
  startingAngle : ℚ
  spX : ℚ
  spY : ℚ
  sdX : ℚ
  sdY : ℚ
deriving Repr, DecidableEq

/-- The `Score` record computed by the `Car.score` getter. -/
structure ScoreT where
  distance : ℚ
  time : ℚ
  laps : ℕ
  success : Bool
  score : ℚ
deriving Repr, DecidableEq

/-- The mutable runtime state of a `Car` (the fields the verified operations
touch; the render-only fields — color, canvases, sensor buffers — are
omitted).  `width`/`height` are the per-car copies of
`Settings.carWidth/carHeight` taken at construction. -/
structure CarState where
  name : String
  width : ℚ
  height : ℚ
  fudgeFactor : ℚ
  track : Option TrackT
  posX : ℚ
  posY : ℚ
  angle : ℚ
  speed : ℚ
  steering : ℚ
  acceleration : ℚ
  odometer : ℚ
  laps : ℕ
  inCrossing : Bool
  crossingDistance : ℚ
  totalTicks : ℚ
  startTime : ℚ
  endTime : ℚ
  collided : Bool
  pastTracking : List (ℚ × ℚ)
  net : Option NetworkConfig
deriving Repr, DecidableEq

/-- The trainer-facing `Settings` fields. -/
structure SettingsT where
  carWidth : ℚ
  carHeight : ℚ
  friction : ℚ
  maxSpeed : ℚ
  maxAcceleration : ℚ
  maxSteering : ℚ
  manualControl : Bool
  numIterations : ℕ
  numSimGlobalBest : ℕ
  numSimTrackBest : ℕ
  numSimTrackRandom : ℕ
  sotaNet : NetworkConfig
  sotaScore : List (String × ScoreT)
deriving Repr, DecidableEq

namespace Car

/-- The `Car.score` getter (`now = Date.now()`):
`distance = odometer / max(width, height)`;
`time = ((endTime || now) - (startTime || now)) / 1000`;
`success = !collided && laps >= 3 && startTime > 0`;
`score = startTime > 0 ? max(0, distance - time) + (laps+1)^2 * 10 : 0`. -/
def score (s : CarState) (now : ℚ) : ScoreT :=
  let distance := s.odometer / max s.width s.height
  let time := ((if s.endTime = 0 then now else s.endTime) -
    (if s.startTime = 0 then now else s.startTime)) / 1000
  { distance := distance
    time := time
    laps := s.laps
    success := !s.collided && decide (3 ≤ s.laps) && decide (0 < s.startTime)
    score := if 0 < s.startTime
      then max 0 (distance - time) + ((s.laps : ℚ) + 1) ^ 2 * 10
      else 0 }

/-- Assoc-list lookup for `settings.sotaScore[name]`. -/
def lookupScore (l : List (String × ScoreT)) (k : String) : Option ScoreT :=
  (l.find? fun p => p.1 == k).map fun p => p.2

/-- JS object assignment `sotaScore[name] = v`: replace in place if the key
exists, otherwise append. -/
def setScore (l : List (String × ScoreT)) (k : String) (v : ScoreT) :
    List (String × ScoreT) :=
  if l.any fun p => p.1 == k then
    l.map fun p => if p.1 == k then (k, v) else p
  else l ++ [(k, v)]

/-- Model of `Math.max(...Object.values(sotaScore).map(s => s ? s.score : 0))` —
`none` models the empty spread (JS gives `-Infinity`, which every score
exceeds). -/
def maxScore? (l : List (String × ScoreT)) : Option ℚ :=
  l.foldl (fun acc p => match acc with
    | none => some p.2.score
    | some m => some (max m p.2.score)) none

/-- The SOTA-persistence part of `Car.endRun()`: if the (already ended) car
has a track, a network and a positive score, compare against
`Math.max(...)` of all recorded track scores (all-time high score: persist
network and track record) or against the current track's record alone. -/
def endRunSettings (s1 : CarState) (st : SettingsT) (now : ℚ) : SettingsT :=
  match s1.track, s1.net with
  | some tr, some net =>
    let sc := score s1 now
    if sc.score ≤ 0 then st
    else
      match maxScore? st.sotaScore with
      | none =>
        { st with sotaNet := net, sotaScore := setScore st.sotaScore tr.name sc }
      | some high =>
        if sc.score > high then
          { st with sotaNet := net, sotaScore := setScore st.sotaScore tr.name sc }
        else if sc.score > ((lookupScore st.sotaScore tr.name).map (fun v => v.score)).getD 0 then
          { st with sotaScore := setScore st.sotaScore tr.name sc }
        else st
  | _, _ => st

/-- Model of `Car.endRun()` with its default argument `collided = true` (every call
site in the source uses the default): freeze the end time, backfill the start
time, clear the crossing state, mark the car `collided`, then update the
persisted SOTA records.  Returns the updated car and settings. -/
def endRun (s : CarState) (st : SettingsT) (now : ℚ) : CarState × SettingsT :=
  let s1 : CarState :=
    { s with
      endTime := now
      startTime := if s.startTime = 0 then now else s.startTime
      inCrossing := false
      crossingDistance := 0
      collided := true }
  (s1, endRunSettings s1 st now)

/-- The crossing angle computed by `Car.checkCollision`: bring both angles
into `[0, 2π)`, take the absolute difference, and fold into `[0, π]`. -/
def crossAngleOf (a1 a2 : ℚ) : ℚ :=
  let d := |(if a1 < 0 then a1 + jsPI * 2 else a1) -
    (if a2 < 0 then a2 + jsPI * 2 else a2)|
  if d > jsPI then jsPI * 2 - d else d

/-- Whether a footprint pixel buffer contains a vehicle-over-lap-line pixel. -/
def bufferLapping (buffer : List ℕ) : Bool :=
  buffer.any fun v => Sensor.check v [Sensor.vehicle, Sensor.lapLine]

/-- Whether a footprint pixel buffer contains a vehicle-off-track pixel. -/
def bufferOffTrack (buffer : List ℕ) : Bool :=
  buffer.any fun v => Sensor.check v [Sensor.vehicle, Sensor.offTrack]

/-- Model of `Car.checkCollision(mask)` on the pixel buffer of the car's footprint
window: the edge-triggered lap-line logic followed by the off-track test.
Returns `(collision?, updated car)`; the caller (`checkSensors`) calls
`endRun()` when the first component is `true`.  `tr` is the car's track
(`this.track!`). -/
def checkCollision (s : CarState) (tr : TrackT) (buffer : List ℕ)
    (now : ℚ) : Bool × CarState :=
  let lapping := bufferLapping buffer
  let offTrack := bufferOffTrack buffer
  let crossAngle := crossAngleOf s.angle tr.startingAngle
  if lapping && !s.inCrossing &&
      (decide (s.crossingDistance = 0) || decide (s.odometer ≥ s.crossingDistance + 1)) then
    let s1 := { s with inCrossing := true, crossingDistance := s.odometer }
    if crossAngle > jsPI / 2 then (true, s1)
    else if s1.startTime = 0 then (offTrack, { s1 with startTime := now })
    else if s1.odometer < s1.width + s1.height + tr.roadThickness then (true, s1)
    else (offTrack, { s1 with laps := s1.laps + 1 })
  else if !lapping && s.inCrossing && decide (s.odometer ≥ s.crossingDistance + 1) then
    let s1 := { s with inCrossing := false, crossingDistance := s.odometer }
    if crossAngle > jsPI / 2 then (true, s1) else (offTrack, s1)
  else (offTrack, s)

/-- Model of `Car.manualControl()`: arrow/WASD key steering for the manual car;
`keyF` gives the pressed state of each logical key
(`shortcut.some(a, b)` is `keyF a || keyF b`). -/
def manualControl (keyF : String → Bool) (s : CarState) : CarState :=
  let acc :=
    if keyF "ArrowDown" || keyF "S" then clamp (s.acceleration - 1/10) (-1) (-1/10)
    else if keyF "ArrowUp" || keyF "W" then clamp (s.acceleration + 1/10) (1/10) 1
    else 0
  let steer :=
    if keyF "ArrowLeft" || keyF "A" then clamp (s.steering - 1/10) (-1) (-1/10)
    else if keyF "ArrowRight" || keyF "D" then clamp (s.steering + 1/10) (1/10) 1
    else 0
  { s with acceleration := acc, steering := steer }

/-- The eviction / success test at the top of `Car.tick` for non-manual cars:
`score < -10 || (totalTicks > 3 && score <= 0)`, else-if
`totalTicks > 3 && score <= time/2`, and `laps >= 3`; any of these ends the
run (via `endRun()`). -/
def tickEarlyEnd (s : CarState) (now : ℚ) : Bool :=
  let sc := score s now
  decide (sc.score < -10) || (decide (s.totalTicks > 3) && decide (sc.score ≤ 0)) ||
  (decide (s.totalTicks > 3) && decide (sc.score ≤ sc.time / 2)) ||
  decide (3 ≤ sc.laps)

/-- The steering step of `Car.tick`: clamp steering to `[-1, 1]` and then to
`[-speed, speed]`; if `|steering| ≥ 0.01`, turn, decay the steering input and
apply friction to the speed; finally wrap the angle into `(-π, π]`. -/
def steeringPhase (st : SettingsT) (dt : ℚ) (s : CarState) : CarState :=
  let st1 := clamp s.steering (-1) 1
  let st2 := clamp st1 (-s.speed) s.speed
  let s1 :=
    if |st2| ≥ 1/100 then
      { s with angle := s.angle + st.maxSteering * st2 * dt,
               steering := st2 - st.friction * jsSign st2 * dt,
               speed := s.speed - st.friction * s.speed * dt }
    else { s with steering := st2 }
  { s1 with angle :=
      if s1.angle > jsPI then s1.angle - jsPI * 2
      else if s1.angle < -jsPI then s1.angle + jsPI * 2
      else s1.angle }

/-- The acceleration step of `Car.tick`: clamp the input to `[-1, 1]`; if
`|acceleration| ≥ 0.01` accelerate and decay the input, otherwise apply
friction to the speed; finally clamp the speed to `[0, maxSpeed]`. -/
def accelPhase (st : SettingsT) (dt : ℚ) (s : CarState) : CarState :=
  let a1 := clamp s.acceleration (-1) 1
  let s1 :=
    if |a1| ≥ 1/100 then
      { s with speed := s.speed + st.maxAcceleration * a1 * dt,
               acceleration := a1 - st.friction * jsSign a1 * dt }
    else { s with speed := s.speed - st.friction * s.speed * dt,
                  acceleration := a1 }
  { s1 with speed := clamp s1.speed 0 st.maxSpeed }

/-- The movement step of `Car.tick`: integrate the position along
`(cos angle, sin angle)` and advance the odometer. -/
def movePhase (cosF sinF : ℚ → ℚ) (dt : ℚ) (s : CarState) : CarState :=
  { s with posX := s.posX + cosF s.angle * s.speed * dt,
           posY := s.posY + sinF s.angle * s.speed * dt,
           odometer := s.odometer + s.speed * dt }

/-- The out-of-canvas test of `Car.tick`. -/
def outOfBounds (tr : TrackT) (s : CarState) : Bool :=
  decide (s.posX ≤ 0) || decide (s.posX ≥ tr.width) ||
  decide (s.posY ≤ 0) || decide (s.posY ≥ tr.height)

/-- The backtrack-guard step of `Car.tick`: measure the distance
(`Math.hypot`, passed in as `hypotF`) to each recorded waypoint; if there are
no waypoints or all are farther than
`trackingRadius = max(width, height, roadThickness)`, unshift the current
position (keeping at most 3 waypoints); else if some waypoint *other than the
most recent* is within the radius, the car went back on the track — `none`
signals the `endRun()` exit. -/
def trackingPhase (hypotF : ℚ → ℚ → ℚ) (tr : TrackT) (s : CarState) :
    Option CarState :=
  let trackingRadius := max (max s.width s.height) tr.roadThickness
  let dists := s.pastTracking.map fun p => hypotF (p.1 - s.posX) (p.2 - s.posY)
  if dists.length = 0 || dists.all fun d => decide (d > trackingRadius) then
    let pt := (s.posX, s.posY) :: s.pastTracking
    some { s with pastTracking := if pt.length > 3 then pt.dropLast else pt }
  else if decide (dists.length > 1) &&
      ((dists.drop 1).any fun d => decide (d < trackingRadius)) then
    none
  else some s

/-- The integration part of `Car.tick` (everything after the early-exit
tests): `totalTicks += dt`, then the steering, acceleration, movement,
bounds and backtrack-guard steps in source order. -/
def tickPhysics (cosF1 sinF1 : ℚ → ℚ) (hypotF2 : ℚ → ℚ → ℚ)
    (st : SettingsT) (now dt : ℚ) (tr : TrackT) (s0 : CarState) :
    CarState × SettingsT :=
  let s1 := { s0 with totalTicks := s0.totalTicks + dt }
  let s2 := steeringPhase st dt s1
  let s3 := accelPhase st dt s2
  let s4 := movePhase cosF1 sinF1 dt s3
  if outOfBounds tr s4 then endRun s4 st now
  else match trackingPhase hypotF2 tr s4 with
    | none => endRun s4 st now
    | some s5 => (s5, st)

/-- Model of `Car.tick(dt)`: no-op when collided or unplaced; manual cars read the
keyboard, other cars run the eviction / 3-lap test (ending the run via
`endRun()`); then the physics integration runs.  The trailing
`checkSensors()` perception refresh is asynchronous and modelled separately
(`checkCollision`). -/
def tick (keyF : String → Bool) (cosF1 sinF1 : ℚ → ℚ)
    (hypotF2 : ℚ → ℚ → ℚ) (st : SettingsT) (now dt : ℚ) (s : CarState) :
    CarState × SettingsT :=
  match s.track with
  | none => (s, st)
  | some tr =>
    if s.collided then (s, st)
    else if s.name = "Manual" then
      tickPhysics cosF1 sinF1 hypotF2 st now dt tr (manualControl keyF s)
    else if tickEarlyEnd s now then endRun s st now
    else tickPhysics cosF1 sinF1 hypotF2 st now dt tr s

/-- A doubly clamped value `clamp (clamp x (-1) 1) (-speed) speed` stays in
`[-1, 1]` when `speed ≥ 0`. -/
theorem clamp_neg_self_mem (x v : ℚ) (hx1 : -1 ≤ x) (hx2 : x ≤ 1) (hv : 0 ≤ v) :
    -1 ≤ clamp x (-v) v ∧ clamp x (-v) v ≤ 1 := by
  unfold clamp
  split_ifs <;> constructor <;> linarith

/-- The friction decay `x -= friction * sign(x) * dt` keeps `x ∈ [-1, 1]`
when `|x| ≥ 0.01` and `friction * dt ≤ 1.01`. -/
theorem decay_mem (x fd : ℚ) (hx1 : -1 ≤ x) (hx2 : x ≤ 1) (habs : 1/100 ≤ |x|)
    (h0 : 0 ≤ fd) (h1 : fd ≤ 101/100) :
    -1 ≤ x - fd * jsSign x ∧ x - fd * jsSign x ≤ 1 := by
  unfold jsSign
  split_ifs with hpos hneg
  · rw [abs_of_pos hpos] at habs
    constructor <;> linarith
  · rw [abs_of_neg hneg] at habs
    constructor <;> linarith
  · rw [mul_zero]
    constructor <;> linarith

theorem steeringPhase_steering_mem (st : SettingsT) (dt : ℚ) (s : CarState)
    (hv : 0 ≤ s.speed) (h0 : 0 ≤ st.friction * dt)
    (h1 : st.friction * dt ≤ 101/100) :
    -1 ≤ (steeringPhase st dt s).steering ∧ (steeringPhase st dt s).steering ≤ 1 := by
  unfold steeringPhase
  dsimp only
  have hm1 := clamp_mem s.steering (-1) 1 (by norm_num)
  have hm2 := clamp_neg_self_mem (clamp s.steering (-1) 1) s.speed hm1.1 hm1.2 hv
  split_ifs with h
  · have hd := decay_mem (clamp (clamp s.steering (-1) 1) (-s.speed) s.speed)
      (st.friction * dt) hm2.1 hm2.2 h h0 h1
    have heq : clamp (clamp s.steering (-1) 1) (-s.speed) s.speed -
        st.friction * jsSign (clamp (clamp s.steering (-1) 1) (-s.speed) s.speed) * dt =
        clamp (clamp s.steering (-1) 1) (-s.speed) s.speed -
        st.friction * dt * jsSign (clamp (clamp s.steering (-1) 1) (-s.speed) s.speed) := by
      ring
    rw [heq]
    exact hd
  · exact hm2

theorem steeringPhase_acceleration (st : SettingsT) (dt : ℚ) (s : CarState) :
    (steeringPhase st dt s).acceleration = s.acceleration := by
  unfold steeringPhase
  dsimp only
  split_ifs <;> rfl

theorem steeringPhase_endTime (st : SettingsT) (dt : ℚ) (s : CarState) :
    (steeringPhase st dt s).endTime = s.endTime := by
  unfold steeringPhase
  dsimp only
  split_ifs <;> rfl

theorem accelPhase_speed_mem (st : SettingsT) (dt : ℚ) (s : CarState)
    (hms : 0 ≤ st.maxSpeed) :
    0 ≤ (accelPhase st dt s).speed ∧ (accelPhase st dt s).speed ≤ st.maxSpeed := by
  unfold accelPhase
  dsimp only
  split_ifs <;> exact clamp_mem _ _ _ hms

theorem accelPhase_acceleration_mem (st : SettingsT) (dt : ℚ) (s : CarState)
    (h0 : 0 ≤ st.friction * dt) (h1 : st.friction * dt ≤ 101/100) :
    -1 ≤ (accelPhase st dt s).acceleration ∧ (accelPhase st dt s).acceleration ≤ 1 := by
  unfold accelPhase
  dsimp only
  have hm1 := clamp_mem s.acceleration (-1) 1 (by norm_num)
  split_ifs with h
  · have hd := decay_mem (clamp s.acceleration (-1) 1) (st.friction * dt)
      hm1.1 hm1.2 h h0 h1
    have heq : clamp s.acceleration (-1) 1 -
        st.friction * jsSign (clamp s.acceleration (-1) 1) * dt =
        clamp s.acceleration (-1) 1 -
        st.friction * dt * jsSign (clamp s.acceleration (-1) 1) := by
      ring
    rw [heq]
    exact hd
  · exact hm1

theorem accelPhase_steering (st : SettingsT) (dt : ℚ) (s : CarState) :
    (accelPhase st dt s).steering = s.steering := by
  unfold accelPhase
  dsimp only
  split_ifs <;> rfl

theorem accelPhase_endTime (st : SettingsT) (dt : ℚ) (s : CarState) :
    (accelPhase st dt s).endTime = s.endTime := by
  unfold accelPhase
  dsimp only
  split_ifs <;> rfl

/-- Lemma: `endRun` only ends the run and updates SOTA records: the car component is
the input car with the end/start time, crossing state and collided flag
overwritten. -/
theorem endRun_car (s : CarState) (st : SettingsT) (now : ℚ) :
    (endRun s st now).1 =
      { s with endTime := now,
               startTime := if s.startTime = 0 then now else s.startTime,
               inCrossing := false, crossingDistance := 0, collided := true } := rfl

theorem trackingPhase_some_fields (hypotF : ℚ → ℚ → ℚ) (tr : TrackT)
    (s s' : CarState) (h : trackingPhase hypotF tr s = some s') :
    s'.speed = s.speed ∧ s'.steering = s.steering ∧
    s'.acceleration = s.acceleration ∧ s'.endTime = s.endTime ∧
    s'.collided = s.collided := by
  unfold trackingPhase at h
  dsimp only at h
  split_ifs at h <;> (try cases h) <;> exact ⟨rfl, rfl, rfl, rfl, rfl⟩

/-- All bounds established by the integration part of `tick`: the final speed
is clamped into `[0, maxSpeed]` and the steering/acceleration inputs stay in
`[-1, 1]` (for `friction * dt ≤ 1.01`, they are clamped and then decayed by
at most `friction * dt`). -/
theorem tickPhysics_bounds (cosF1 sinF1 : ℚ → ℚ) (hypotF2 : ℚ → ℚ → ℚ)
    (st : SettingsT) (now dt : ℚ) (tr : TrackT) (s0 : CarState)
    (hv : 0 ≤ s0.speed) (h0 : 0 ≤ st.friction * dt)
    (h1 : st.friction * dt ≤ 101/100) (hms : 0 ≤ st.maxSpeed) :
    (0 ≤ (tickPhysics cosF1 sinF1 hypotF2 st now dt tr s0).1.speed ∧
      (tickPhysics cosF1 sinF1 hypotF2 st now dt tr s0).1.speed ≤ st.maxSpeed) ∧
    (-1 ≤ (tickPhysics cosF1 sinF1 hypotF2 st now dt tr s0).1.steering ∧
      (tickPhysics cosF1 sinF1 hypotF2 st now dt tr s0).1.steering ≤ 1) ∧
    (-1 ≤ (tickPhysics cosF1 sinF1 hypotF2 st now dt tr s0).1.acceleration ∧
      (tickPhysics cosF1 sinF1 hypotF2 st now dt tr s0).1.acceleration ≤ 1) := by
  unfold tickPhysics
  dsimp only
  have hsteer := steeringPhase_steering_mem st dt
    { s0 with totalTicks := s0.totalTicks + dt } hv h0 h1
  have haccmem := accelPhase_acceleration_mem st dt
    (steeringPhase st dt { s0 with totalTicks := s0.totalTicks + dt }) h0 h1
  have hspd := accelPhase_speed_mem st dt
    (steeringPhase st dt { s0 with totalTicks := s0.totalTicks + dt }) hms
  have hst2 := accelPhase_steering st dt
    (steeringPhase st dt { s0 with totalTicks := s0.totalTicks + dt })
  set s3 := accelPhase st dt
    (steeringPhase st dt { s0 with totalTicks := s0.totalTicks + dt }) with hs3
  rw [← hst2] at hsteer
  split_ifs with hob
  · rw [endRun_car]
    exact ⟨hspd, hsteer, haccmem⟩
  · rcases htp : trackingPhase hypotF2 tr
        (movePhase cosF1 sinF1 dt s3) with _ | s5
    · simp only [htp]
      rw [endRun_car]
      exact ⟨hspd, hsteer, haccmem⟩
    · simp only [htp]
      obtain ⟨e1, e2, e3, _, _⟩ := trackingPhase_some_fields _ _ _ _ htp
      rw [show (movePhase cosF1 sinF1 dt s3).speed = s3.speed from rfl] at e1
      rw [show (movePhase cosF1 sinF1 dt s3).steering = s3.steering from rfl] at e2
      rw [show (movePhase cosF1 sinF1 dt s3).acceleration = s3.acceleration from rfl] at e3
      rw [e1, e2, e3]
      exact ⟨hspd, hsteer, haccmem⟩

end Car

/-- C2 (amended): on a lap-line rising edge (footprint newly lapping,
`inCrossing` previously false) with heading within 90° of the track's start
heading and a prior crossing already recorded (`startTime ≠ 0`, so this is the
Nth crossing with N > 1): the edge is registered only if `crossingDistance`
is 0 or the odometer has advanced by at least 1 (one pixel-unit, not
`carWidth + carHeight + roadThickness`) since the prior crossing edge;
a registered crossing increments the lap count by exactly one if the *total*
odometer (since placement, not since the previous crossing) is at least
`carWidth + carHeight + roadThickness`, and otherwise ends the run as
collided ("incomplete lap"). -/
theorem checkCollision_risingEdge_amended (s : CarState) (tr : TrackT)
    (buffer : List ℕ) (now : ℚ)
    (hlap : Car.bufferLapping buffer = true)
    (hoff : Car.bufferOffTrack buffer = false)
    (hin : s.inCrossing = false)
    (hang : ¬Car.crossAngleOf s.angle tr.startingAngle > jsPI / 2)
    (hstart : ¬s.startTime = 0) :
    ((s.crossingDistance = 0 ∨ s.odometer ≥ s.crossingDistance + 1) →
      Car.checkCollision s tr buffer now =
        (if s.odometer < s.width + s.height + tr.roadThickness
         then (true, { s with inCrossing := true, crossingDistance := s.odometer })
         else (false, { s with inCrossing := true, crossingDistance := s.odometer,
                               laps := s.laps + 1 }))) ∧
    (¬(s.crossingDistance = 0 ∨ s.odometer ≥ s.crossingDistance + 1) →
      Car.checkCollision s tr buffer now = (false, s)) := by
  constructor
  · intro hguard
    unfold Car.checkCollision
    dsimp only
    rw [hlap, hoff, hin]
    have hg : (decide (s.crossingDistance = 0) ||
        decide (s.odometer ≥ s.crossingDistance + 1)) = true := by
      rcases hguard with h | h <;> simp [h]
    rw [hg]
    simp only [Bool.not_false, Bool.and_self, Bool.and_true, if_true]
    rw [if_neg hang, if_neg hstart]
  · intro hguard
    push_neg at hguard
    obtain ⟨h0, h1⟩ := hguard
    unfold Car.checkCollision
    dsimp only
    rw [hlap, hoff, hin]
    have hg : (decide (s.crossingDistance = 0) ||
        decide (s.odometer ≥ s.crossingDistance + 1)) = false := by
      simp [h0, not_le.mpr h1]
    rw [hg]
    simp

/-- Witness for C2's amended theorem: a second rising-edge crossing at total
odometer 72 with the prior crossing at 70 — the code registers the edge
(advance ≥ 1) and, since 72 ≥ 20 + 15 + 30, counts a lap. -/
theorem checkCollision_risingEdge_amended_witness :
    let s : CarState :=
      { name := "A", width := 20, height := 15, fudgeFactor := 1,
        track := none, posX := 100, posY := 100, angle := 0, speed := 1,
        steering := 0, acceleration := 0, odometer := 72, laps := 0,
        inCrossing := false, crossingDistance := 70, totalTicks := 4,
        startTime := 5, endTime := 0, collided := false, pastTracking := [],
        net := none }
    let tr : TrackT :=
      { name := "T", width := 800, height := 600, roadThickness := 30,
        startingAngle := 0, spX := 400, spY := 80, sdX := 1, sdY := 0 }
    Car.bufferLapping [0x7fff7f] = true ∧
    Car.bufferOffTrack [0x7fff7f] = false ∧
    s.inCrossing = false ∧
    ¬Car.crossAngleOf s.angle tr.startingAngle > jsPI / 2 ∧
    ¬s.startTime = 0 ∧
    (((s.crossingDistance = 0 ∨ s.odometer ≥ s.crossingDistance + 1) →
      Car.checkCollision s tr [0x7fff7f] 9000 =
        (if s.odometer < s.width + s.height + tr.roadThickness
         then (true, { s with inCrossing := true, crossingDistance := s.odometer })
         else (false, { s with inCrossing := true, crossingDistance := s.odometer,
                               laps := s.laps + 1 }))) ∧
     (¬(s.crossingDistance = 0 ∨ s.odometer ≥ s.crossingDistance + 1) →
      Car.checkCollision s tr [0x7fff7f] 9000 = (false, s))) := by
  refine ⟨by decide, by decide, rfl, ?_, by norm_num, ?_⟩
  · show ¬Car.crossAngleOf 0 0 > jsPI / 2
    unfold Car.crossAngleOf jsPI
    norm_num
  · exact checkCollision_risingEdge_amended _ _ _ 9000 (by decide) (by decide) rfl
      (by unfold Car.crossAngleOf jsPI; norm_num) (by norm_num)

/-- C2 (counterexample): for the car above — prior crossing edge recorded at
odometer 70, current odometer 72, so the odometer has advanced by only 2,
far less than `carWidth + carHeight + roadThickness = 65` — a new rising-edge
crossing within 90° of the start heading is nevertheless registered and
increments the lap count, and the run does not end: the code's re-trigger
guard is 1 unit, and its "incomplete lap" test compares the *total* odometer
(72 ≥ 65) rather than the advance since the prior crossing (2 < 65). -/
theorem checkCollision_retrigger_counterexample :
    let s : CarState :=
      { name := "A", width := 20, height := 15, fudgeFactor := 1,
        track := none, posX := 100, posY := 100, angle := 0, speed := 1,
        steering := 0, acceleration := 0, odometer := 72, laps := 0,
        inCrossing := false, crossingDistance := 70, totalTicks := 4,
        startTime := 5, endTime := 0, collided := false, pastTracking := [],
        net := none }
    let tr : TrackT :=
      { name := "T", width := 800, height := 600, roadThickness := 30,
        startingAngle := 0, spX := 400, spY := 80, sdX := 1, sdY := 0 }
    s.odometer - s.crossingDistance = 2 ∧
    s.width + s.height + tr.roadThickness = 65 ∧
    Car.checkCollision s tr [0x7fff7f] 9000 =
      (false, { s with inCrossing := true, crossingDistance := 72, laps := 1 }) := by
  refine ⟨by norm_num, by norm_num, ?_⟩
  unfold Car.checkCollision Car.bufferLapping Car.bufferOffTrack
  dsimp only
  rw [show (([0x7fff7f] : List ℕ).any fun v =>
      Sensor.check v [Sensor.vehicle, Sensor.lapLine]) = true from by decide]
  rw [show (([0x7fff7f] : List ℕ).any fun v =>
      Sensor.check v [Sensor.vehicle, Sensor.offTrack]) = false from by decide]
  have hg : (decide ((70 : ℚ) = 0) || decide ((72 : ℚ) ≥ 70 + 1)) = true := by
    norm_num
  have hang : ¬Car.crossAngleOf 0 0 > jsPI / 2 := by
    unfold Car.crossAngleOf jsPI
    norm_num
  simp only [hg, Bool.not_false, Bool.and_self, Bool.and_true, if_true]
  rw [if_neg hang]
  norm_num

/-- C4 (amended): for a Racing car taking the integration path of `tick`
(manual, or not evicted by the early score/lap tests), after `tick(dt)` the
speed lies in `[0, maxSpeed]` and the steering and acceleration inputs lie in
`[-1, 1]` — provided the car's incoming speed is nonnegative (as every
reachable state has) and `friction * dt ≤ 1.01`; the `[-1, 1]` clamps run at
the *start* of the integration, so for larger `dt` the friction decay can
overshoot them (see the counterexample). -/
theorem tick_bounds_amended (keyF : String → Bool) (cosF1 sinF1 : ℚ → ℚ)
    (hypotF2 : ℚ → ℚ → ℚ) (st : SettingsT) (now dt : ℚ) (s : CarState)
    (tr : TrackT) (htr : s.track = some tr) (hc : s.collided = false)
    (hv : 0 ≤ s.speed) (h0 : 0 ≤ st.friction * dt)
    (h1 : st.friction * dt ≤ 101/100) (hms : 0 ≤ st.maxSpeed)
    (hpath : s.name = "Manual" ∨ Car.tickEarlyEnd s now = false) :
    (0 ≤ (Car.tick keyF cosF1 sinF1 hypotF2 st now dt s).1.speed ∧
      (Car.tick keyF cosF1 sinF1 hypotF2 st now dt s).1.speed ≤ st.maxSpeed) ∧
    (-1 ≤ (Car.tick keyF cosF1 sinF1 hypotF2 st now dt s).1.steering ∧
      (Car.tick keyF cosF1 sinF1 hypotF2 st now dt s).1.steering ≤ 1) ∧
    (-1 ≤ (Car.tick keyF cosF1 sinF1 hypotF2 st now dt s).1.acceleration ∧
      (Car.tick keyF cosF1 sinF1 hypotF2 st now dt s).1.acceleration ≤ 1) := by
  unfold Car.tick
  rw [htr]
  dsimp only
  rw [hc]
  simp only [Bool.false_eq_true, if_false]
  split_ifs with hname hearly
  · exact Car.tickPhysics_bounds cosF1 sinF1 hypotF2 st now dt tr
      (Car.manualControl keyF s) hv h0 h1 hms
  · rcases hpath with hl | hr
    · exact absurd hl hname
    · rw [hearly] at hr
      cases hr
  · exact Car.tickPhysics_bounds cosF1 sinF1 hypotF2 st now dt tr s hv h0 h1 hms

/-- Witness for C4's amended theorem on a concrete racing car. -/
theorem tick_bounds_amended_witness :
    let st : SettingsT :=
      { carWidth := 20, carHeight := 15, friction := 1/10, maxSpeed := 100,
        maxAcceleration := 25, maxSteering := 3/2, manualControl := false,
        numIterations := 0, numSimGlobalBest := 4, numSimTrackBest := 4,
        numSimTrackRandom := 2, sotaNet := ⟨1, [], 1, [[[0, 0]]]⟩,
        sotaScore := [] }
    let tr : TrackT :=
      { name := "T", width := 800, height := 600, roadThickness := 30,
        startingAngle := 0, spX := 400, spY := 80, sdX := 1, sdY := 0 }
    let s : CarState :=
      { name := "A", width := 20, height := 15, fudgeFactor := 1,
        track := some tr, posX := 100, posY := 100, angle := 0, speed := 1,
        steering := 1, acceleration := 0, odometer := 0, laps := 0,
        inCrossing := false, crossingDistance := 0, totalTicks := 0,
        startTime := 0, endTime := 0, collided := false, pastTracking := [],
        net := none }
    (0 ≤ (Car.tick (fun _ => false) (fun _ => 0) (fun _ => 0) (fun _ _ => 0)
        st 5000 (1/10) s).1.speed ∧
      (Car.tick (fun _ => false) (fun _ => 0) (fun _ => 0) (fun _ _ => 0)
        st 5000 (1/10) s).1.speed ≤ st.maxSpeed) ∧
    (-1 ≤ (Car.tick (fun _ => false) (fun _ => 0) (fun _ => 0) (fun _ _ => 0)
        st 5000 (1/10) s).1.steering ∧
      (Car.tick (fun _ => false) (fun _ => 0) (fun _ => 0) (fun _ _ => 0)
        st 5000 (1/10) s).1.steering ≤ 1) ∧
    (-1 ≤ (Car.tick (fun _ => false) (fun _ => 0) (fun _ => 0) (fun _ _ => 0)
        st 5000 (1/10) s).1.acceleration ∧
      (Car.tick (fun _ => false) (fun _ => 0) (fun _ => 0) (fun _ _ => 0)
        st 5000 (1/10) s).1.acceleration ≤ 1) := by
  intro st tr s
  refine tick_bounds_amended (fun _ => false) (fun _ => 0) (fun _ => 0)
    (fun _ _ => 0) st 5000 (1/10) s tr rfl rfl (by norm_num) (by norm_num)
    (by norm_num) (by norm_num) (Or.inr ?_)
  unfold Car.tickEarlyEnd Car.score
  norm_num

set_option maxHeartbeats 2000000 in
/-- C4 (counterexample): with friction 0.1 and `dt = 1000` (the claim
quantifies over *every* `dt ≥ 0`), a Racing car entering `tick` with
steering input 1 and speed 1 leaves the tick with steering `-99`:
the clamp to `[-1, 1]` runs at the start of the step, and the friction decay
`steering -= friction * sign(steering) * dt` then overshoots far past the
interval, so the post-tick steering input is not in `[-1, 1]`. -/
theorem tick_largeDt_steering_escapes :
    let st : SettingsT :=
      { carWidth := 20, carHeight := 15, friction := 1/10, maxSpeed := 100,
        maxAcceleration := 25, maxSteering := 3/2, manualControl := false,
        numIterations := 0, numSimGlobalBest := 4, numSimTrackBest := 4,
        numSimTrackRandom := 2, sotaNet := ⟨1, [], 1, [[[0, 0]]]⟩,
        sotaScore := [] }
    let tr : TrackT :=
      { name := "T", width := 800, height := 600, roadThickness := 30,
        startingAngle := 0, spX := 400, spY := 80, sdX := 1, sdY := 0 }
    let s : CarState :=
      { name := "A", width := 20, height := 15, fudgeFactor := 1,
        track := some tr, posX := 100, posY := 100, angle := 0, speed := 1,
        steering := 1, acceleration := 0, odometer := 0, laps := 0,
        inCrossing := false, crossingDistance := 0, totalTicks := 0,
        startTime := 0, endTime := 0, collided := false, pastTracking := [],
        net := none }
    (Car.tick (fun _ => false) (fun _ => 0) (fun _ => 0) (fun _ _ => 0)
        st 5000 1000 s).1.steering = -99 ∧
    ¬(-1 ≤ (-99 : ℚ) ∧ (-99 : ℚ) ≤ 1) := by
  intro st tr s
  refine ⟨?_, by norm_num⟩
  unfold Car.tick
  dsimp only
  norm_num [Car.tickEarlyEnd, Car.score, Car.tickPhysics, Car.steeringPhase,
    Car.accelPhase, Car.movePhase, Car.outOfBounds, Car.trackingPhase,
    Car.manualControl, clamp, jsSign, jsPI, Car.endRun, Car.endRunSettings]
  rw [if_neg (show ¬("A" = "Manual") from by decide)]

/-- C9: every transition out of Racing inside `tick` — the eviction tests,
reaching 3 laps, leaving the canvas, and the backtrack guard — goes through
`endRun()` with its default `collided = true`; consequently an ended car
(`endTime ≠ 0`) always has `collided = true`, and any car with
`collided = true` has `score.success = false`; in particular a non-manual
Racing car that has completed 3 laps is ended as "collided" by its next
tick. -/
theorem tick_ended_success_false (keyF : String → Bool) (cosF1 sinF1 : ℚ → ℚ)
    (hypotF2 : ℚ → ℚ → ℚ) (st : SettingsT) (now dt : ℚ) (s : CarState)
    (tr : TrackT) (htr : s.track = some tr) (hc : s.collided = false)
    (hend : s.endTime = 0) :
    ((Car.tick keyF cosF1 sinF1 hypotF2 st now dt s).1.endTime ≠ 0 →
      (Car.tick keyF cosF1 sinF1 hypotF2 st now dt s).1.collided = true) ∧
    (∀ r : CarState, r.collided = true → ∀ t : ℚ,
      (Car.score r t).success = false) ∧
    (s.name ≠ "Manual" → 3 ≤ s.laps →
      (Car.tick keyF cosF1 sinF1 hypotF2 st now dt s).1.collided = true ∧
      (Car.tick keyF cosF1 sinF1 hypotF2 st now dt s).1.endTime = now) := by
  have hsucc : ∀ r : CarState, r.collided = true → ∀ t : ℚ,
      (Car.score r t).success = false := by
    intro r hr t
    simp [Car.score, hr]
  have hphys : ∀ s0 : CarState, s0.endTime = 0 →
      ((Car.tickPhysics cosF1 sinF1 hypotF2 st now dt tr s0).1.endTime ≠ 0 →
        (Car.tickPhysics cosF1 sinF1 hypotF2 st now dt tr s0).1.collided = true) := by
    intro s0 h0
    unfold Car.tickPhysics
    dsimp only
    split_ifs with hob
    · intro _
      rw [Car.endRun_car]
    · rcases htp : Car.trackingPhase hypotF2 tr
          (Car.movePhase cosF1 sinF1 dt
            (Car.accelPhase st dt (Car.steeringPhase st dt
              { s0 with totalTicks := s0.totalTicks + dt }))) with _ | s5
      · simp only [htp]
        intro _
        rw [Car.endRun_car]
      · simp only [htp]
        intro habs
        exfalso
        apply habs
        obtain ⟨_, _, _, e4, _⟩ := Car.trackingPhase_some_fields _ _ _ _ htp
        rw [e4, show (Car.movePhase cosF1 sinF1 dt
          (Car.accelPhase st dt (Car.steeringPhase st dt
            { s0 with totalTicks := s0.totalTicks + dt }))).endTime =
          (Car.accelPhase st dt (Car.steeringPhase st dt
            { s0 with totalTicks := s0.totalTicks + dt })).endTime from rfl,
          Car.accelPhase_endTime, Car.steeringPhase_endTime]
        exact h0
  refine ⟨?_, hsucc, ?_⟩
  · unfold Car.tick
    rw [htr]
    dsimp only
    rw [hc]
    simp only [Bool.false_eq_true, if_false]
    split_ifs with hname hearly
    · exact hphys (Car.manualControl keyF s) hend
    · intro _
      rw [Car.endRun_car]
    · exact hphys s hend
  · intro hnm hlaps
    have hee : Car.tickEarlyEnd s now = true := by
      unfold Car.tickEarlyEnd Car.score
      dsimp only
      have : decide (3 ≤ s.laps) = true := by
        simpa using hlaps
      simp [this]
    unfold Car.tick
    rw [htr]
    dsimp only
    rw [hc]
    simp only [Bool.false_eq_true, if_false]
    rw [if_neg hnm, if_pos hee, Car.endRun_car]
    exact ⟨rfl, rfl⟩

/-- Witness for C9: a concrete 3-lap car is ended as collided with
`success = false`. -/
theorem tick_ended_success_false_witness :
    let st : SettingsT :=
      { carWidth := 20, carHeight := 15, friction := 1/10, maxSpeed := 100,
        maxAcceleration := 25, maxSteering := 3/2, manualControl := false,
        numIterations := 0, numSimGlobalBest := 4, numSimTrackBest := 4,
        numSimTrackRandom := 2, sotaNet := ⟨1, [], 1, [[[0, 0]]]⟩,
        sotaScore := [] }
    let tr : TrackT :=
      { name := "T", width := 800, height := 600, roadThickness := 30,
        startingAngle := 0, spX := 400, spY := 80, sdX := 1, sdY := 0 }
    let s : CarState :=
      { name := "A", width := 20, height := 15, fudgeFactor := 1,
        track := some tr, posX := 400, posY := 80, angle := 0, speed := 50,
        steering := 0, acceleration := 1, odometer := 9000, laps := 3,
        inCrossing := false, crossingDistance := 8000, totalTicks := 90,
        startTime := 1000, endTime := 0, collided := false,
        pastTracking := [], net := some ⟨1, [], 1, [[[0, 0]]]⟩ }
    ((Car.tick (fun _ => false) (fun _ => 0) (fun _ => 0) (fun _ _ => 0)
        st 7000 (1/10) s).1.endTime ≠ 0 →
      (Car.tick (fun _ => false) (fun _ => 0) (fun _ => 0) (fun _ _ => 0)
        st 7000 (1/10) s).1.collided = true) ∧
    (∀ r : CarState, r.collided = true → ∀ t : ℚ,
      (Car.score r t).success = false) ∧
    (s.name ≠ "Manual" → 3 ≤ s.laps →
      (Car.tick (fun _ => false) (fun _ => 0) (fun _ => 0) (fun _ _ => 0)
        st 7000 (1/10) s).1.collided = true ∧
      (Car.tick (fun _ => false) (fun _ => 0) (fun _ => 0) (fun _ _ => 0)
        st 7000 (1/10) s).1.endTime = 7000) := by
  intro st tr s
  exact tick_ended_success_false (fun _ => false) (fun _ => 0) (fun _ => 0)
    (fun _ _ => 0) st 7000 (1/10) s tr rfl rfl rfl

/-! ## Trainer: the generational loop (`Car.nextGeneration`) -/

namespace Car

/-- A fresh `new Car(name)`: dimensions from the settings, unplaced, no
network.  (The random body color is render-only and not modelled.) -/
def newCar (st : SettingsT) (name : String) : CarState :=
  { name := name, width := st.carWidth, height := st.carHeight,
    fudgeFactor := 1/2, track := none, posX := 0, posY := 0, angle := 0,
    speed := 0, steering := 0, acceleration := 0, odometer := 0, laps := 0,
    inCrossing := false, crossingDistance := 0, totalTicks := 0,
    startTime := 0, endTime := 0, collided := false, pastTracking := [],
    net := none }

/-- The registry write `cars[name] = car`: an existing key keeps its
position, a new key is appended (JS object insertion order). -/
def upsertCar (cars : List CarState) (c : CarState) : List CarState :=
  if cars.any fun x => x.name == c.name then
    cars.map fun x => if x.name == c.name then c else x
  else cars ++ [c]

/-- Model of `delete cars[name]`. -/
def removeCar (cars : List CarState) (name : String) : List CarState :=
  cars.filter fun x => !(x.name == name)

/-- Model of `cars[name]` lookup. -/
def lookupCar (cars : List CarState) (name : String) : Option CarState :=
  cars.find? fun x => x.name == name

/-- An AI-controlled car: not the manual driver, and carrying a network. -/
def isAI (c : CarState) : Bool :=
  !(c.name == "Manual") && c.net.isSome

/-- Model of `Car.placeOnTrack(track)`: reset position/heading to the track start
(half a car behind the line, jittered across the line for AI cars —
`fudgeRand` models the `Math.random()` draw), zero all scoring state, and
seed the backtrack guard with a waypoint behind the start. -/
def placeOnTrack (fudgeRand : ℚ) (tr : TrackT) (s : CarState) : CarState :=
  let fudge := if s.net.isSome
    then fudgeRand * tr.roadThickness - tr.roadThickness / 2 else 0
  let trackingRadius := max (max s.width s.height) tr.roadThickness + 1
  { s with
    track := some tr
    posX := tr.spX - tr.sdX * s.width / 2 + fudge * s.fudgeFactor * tr.sdY
    posY := tr.spY - tr.sdY * s.height / 2 - fudge * s.fudgeFactor * tr.sdX
    angle := tr.startingAngle
    speed := 0, steering := 0, acceleration := 0
    odometer := 0, laps := 0, inCrossing := false, crossingDistance := 0
    startTime := 0, endTime := 0, collided := false
    pastTracking := [(tr.spX - tr.sdX * trackingRadius,
      tr.spY - tr.sdY * trackingRadius)] }

/-- Model of `calcStdDev(score)`: 1 for missing/zero scores, otherwise
`clamp(sqrt(10 / score), 0.1, 1)`; `sqrtF` is `Math.sqrt`. -/
def calcStdDev (sqrtF : ℚ → ℚ) (sc : Option ScoreT) : ℚ :=
  match sc with
  | none => 1
  | some v =>
    if v.score = 0 ∨ v.distance = 0 ∨ v.time = 0 then 1
    else clamp (sqrtF (10 / v.score)) (1/10) 1

/-- Model of `aiCars.forEach((car) => car.endRun())` over the registry: finalize every
AI car in order, threading the settings (SOTA updates) through. -/
def endRunAll (now : ℚ) : List CarState → SettingsT → List CarState × SettingsT
  | [], st => ([], st)
  | c :: rest, st =>
    if isAI c then
      let cst := endRun c st now
      let rst := endRunAll now rest cst.2
      (cst.1 :: rst.1, rst.2)
    else
      let rst := endRunAll now rest st
      (c :: rst.1, rst.2)

/-- One breeding loop
(`for (i = 0; i < count; i++) { new Car(base + i); car.net = parent.randomStep(stdev(i)) }`):
each new car is registered (upserted) with a mutated clone of `parent`. -/
def spawnGo (g : ℚ → ℚ → ℚ) (st : SettingsT) (base : String)
    (parent : NetworkConfig) (stdevAt : ℕ → ℚ) :
    ℕ → ℕ → List CarState → List CarState
  | _, 0, cars => cars
  | i, fuel + 1, cars =>
    spawnGo g st base parent stdevAt (i + 1) fuel
      (upsertCar cars
        { newCar st (base ++ toString i) with
          net := some (Network.randomStep g (stdevAt i) parent) })

/-- Model of `Car.nextGeneration(track, force)`: maintain the manual driver, return
early (no-op) unless forced while an AI car is still racing on `track`,
otherwise finalize all runs, rank by score, breed the three sources
(global champion / track best / random member), bump the iteration counter
and re-place every unplaced car.  `g` is the Gaussian sampler, `sqrtF` is
`Math.sqrt`, and `rand` the stream of `Math.random()` draws. -/
def nextGeneration (g : ℚ → ℚ → ℚ) (sqrtF : ℚ → ℚ) (rand : ℕ → ℚ)
    (tr : TrackT) (force : Bool) (now : ℚ) (cars : List CarState)
    (st : SettingsT) : List CarState × SettingsT :=
  let manual := lookupCar cars "Manual"
  let cars1 :=
    if st.manualControl &&
        (manual.isNone || (manual.map fun c => c.collided).getD true ||
          !(((manual.bind fun c => c.track).map fun t => t.name).getD "" == tr.name)) then
      upsertCar cars (placeOnTrack (rand 0) tr (newCar st "Manual"))
    else if !st.manualControl && manual.isSome then removeCar cars "Manual"
    else cars
  let aiCars := cars1.filter isAI
  if !force && aiCars.any fun c =>
      !c.collided && ((c.track.map fun t => t.name).getD "" == tr.name) then
    (cars1, st)
  else
    let cs2 := endRunAll now cars1 st
    let sorted := (cs2.1.filter isAI).mergeSort fun a b =>
      decide ((score b now).score ≤ (score a now).score)
    let sotaNet := cs2.2.sotaNet
    let sotaSc := lookupScore cs2.2.sotaScore tr.name
    let trackNet := match sorted.head? with
      | some c => c.net.getD sotaNet
      | none => sotaNet
    let trackSc : Option ScoreT := match sorted.head? with
      | some c => some (score c now)
      | none => sotaSc
    let randomIdx := (⌊rand 1 * (sorted.length : ℚ)⌋).toNat
    let randomNet := match sorted.get? randomIdx with
      | some c => c.net.getD trackNet
      | none => trackNet
    let randomSc : Option ScoreT := match sorted.get? randomIdx with
      | some c => some (score c now)
      | none => trackSc
    let cars3 := spawnGo g st "AI.globalBest." sotaNet
      (fun i => if i = 0 then 0 else calcStdDev sqrtF sotaSc)
      0 st.numSimGlobalBest cs2.1
    let cars4 := spawnGo g st "AI.trackBest." trackNet
      (fun i => if i = 0 ∧ Option.map ScoreT.score trackSc ≠ Option.map ScoreT.score sotaSc
        then 0 else calcStdDev sqrtF trackSc)
      0 st.numSimTrackBest cars3
    let cars5 := spawnGo g st "AI.trackRandom." randomNet
      (fun _ => calcStdDev sqrtF randomSc) 0 st.numSimTrackRandom cars4
    let st3 := { cs2.2 with numIterations := cs2.2.numIterations + 1 }
    let cars6 := cars5.mapIdx fun i c =>
      if c.track.isNone then placeOnTrack (rand (i + 2)) tr c else c
    (cars6, st3)

/-- The accumulator step of `maxScore?`. -/
def maxStep (acc : Option ℚ) (p : String × ScoreT) : Option ℚ :=
  match acc with
  | none => some p.2.score
  | some m => some (max m p.2.score)

theorem maxScore?_eq_foldl (l : List (String × ScoreT)) :
    maxScore? l = l.foldl maxStep none := rfl

theorem foldl_maxStep_ge :
    ∀ (l : List (String × ScoreT)) (x : ℚ),
      ∃ m, l.foldl maxStep (some x) = some m ∧ x ≤ m
  | [], x => ⟨x, rfl, le_refl x⟩
  | p :: t, x => by
    obtain ⟨m, hm, hle⟩ := foldl_maxStep_ge t (max x p.2.score)
    exact ⟨m, by simpa [maxStep] using hm,
      le_trans (le_max_left _ _) hle⟩

/-- A recorded score is below the running maximum of all recorded scores. -/
theorem lookup_le_foldl_maxStep :
    ∀ (l : List (String × ScoreT)) (acc : Option ℚ) (k : String) (v : ScoreT),
      lookupScore l k = some v →
      ∃ m, l.foldl maxStep acc = some m ∧ v.score ≤ m
  | [], _, _, _, h => by simp [lookupScore] at h
  | p :: t, acc, k, v, h => by
    unfold lookupScore at h
    by_cases hp : (p.1 == k) = true
    · simp only [List.find?_cons, hp, Option.map_some'] at h
      have hpv : p.2 = v := by injection h
      have hy : ∃ y, maxStep acc p = some y ∧ p.2.score ≤ y := by
        cases acc with
        | none => exact ⟨p.2.score, rfl, le_refl _⟩
        | some m => exact ⟨max m p.2.score, rfl, le_max_right _ _⟩
      obtain ⟨y, hy1, hy2⟩ := hy
      obtain ⟨m, hm, hym⟩ := foldl_maxStep_ge t y
      refine ⟨m, ?_, ?_⟩
      · rw [List.foldl_cons, hy1]
        exact hm
      · rw [← hpv]
        exact le_trans hy2 hym
    · have hp' : (p.1 == k) = false := by simpa using hp
      simp only [List.find?_cons, hp'] at h
      obtain ⟨m, hm, hvm⟩ := lookup_le_foldl_maxStep t (maxStep acc p) k v
        (by unfold lookupScore; exact h)
      exact ⟨m, by rw [List.foldl_cons]; exact hm, hvm⟩

theorem lookup_le_maxScore (l : List (String × ScoreT)) (k : String)
    (v : ScoreT) (h : lookupScore l k = some v) :
    ∃ m, maxScore? l = some m ∧ v.score ≤ m := by
  rw [maxScore?_eq_foldl]
  exact lookup_le_foldl_maxStep l none k v h

theorem lookup_setScore_self (l : List (String × ScoreT)) (k : String)
    (v : ScoreT) : lookupScore (setScore l k v) k = some v := by
  unfold setScore lookupScore
  split_ifs with h
  · rw [List.find?_map]
    have hpred : ((fun p : String × ScoreT => p.1 == k) ∘
        fun p => if p.1 == k then (k, v) else p) = fun p : String × ScoreT => p.1 == k := by
      funext p
      by_cases hp : (p.1 == k) = true <;> simp [Function.comp, hp]
    rw [hpred]
    obtain ⟨x, hx, hpx⟩ := List.any_eq_true.mp h
    have hex : ∃ y, l.find? (fun p : String × ScoreT => p.1 == k) = some y := by
      rcases hf : l.find? fun p : String × ScoreT => p.1 == k with _ | y
      · rw [List.find?_eq_none] at hf
        exact absurd hpx (hf x hx)
      · exact ⟨y, rfl⟩
    obtain ⟨y, hy⟩ := hex
    have hyk : (y.1 == k) = true := by simpa using List.find?_some hy
    rw [hy]
    simp only [Option.map_some']
    rw [if_pos hyk]
  · rw [List.find?_append]
    have hnone : l.find? (fun p : String × ScoreT => p.1 == k) = none := by
      rw [List.find?_eq_none]
      intro x hx hpx
      exact h (List.any_eq_true.mpr ⟨x, hx, hpx⟩)
    rw [hnone]
    simp

theorem lookup_setScore_ne (l : List (String × ScoreT)) (k k' : String)
    (v : ScoreT) (hk : k' ≠ k) :
    lookupScore (setScore l k v) k' = lookupScore l k' := by
  have hkk' : (k == k') = false := beq_eq_false_iff_ne.mpr (Ne.symm hk)
  unfold setScore lookupScore
  split_ifs with h
  · rw [List.find?_map]
    have hpred : ((fun p : String × ScoreT => p.1 == k') ∘
        fun p => if p.1 == k then (k, v) else p) = fun p : String × ScoreT => p.1 == k' := by
      funext p
      by_cases hp : (p.1 == k) = true
      · have hp' : p.1 = k := eq_of_beq hp
        simp [Function.comp, hp, hp']
      · simp [Function.comp, hp]
    rw [hpred]
    rcases hf : l.find? fun p : String × ScoreT => p.1 == k' with _ | y
    · simp
    · have hyk : y.1 = k' := eq_of_beq (by simpa using List.find?_some hf)
      have hyne : (y.1 == k) = false := beq_eq_false_iff_ne.mpr (by rw [hyk]; exact hk)
      simp only [Option.map_some']
      rw [if_neg (by simp [hyne])]
  · rw [List.find?_append]
    have hsingle : ([(k, v)].find? fun p : String × ScoreT => p.1 == k') = none := by
      simp [List.find?_cons, hkk']
    rw [hsingle]
    cases l.find? fun p : String × ScoreT => p.1 == k' <;> rfl

/-- A single `endRun` never decreases any track's recorded best score. -/
theorem endRunSettings_sota_monotone (s1 : CarState) (st : SettingsT)
    (now : ℚ) (k : String) (v : ScoreT)
    (h : lookupScore st.sotaScore k = some v) :
    ∃ v', lookupScore (endRunSettings s1 st now).sotaScore k = some v' ∧
      v.score ≤ v'.score := by
  unfold endRunSettings
  split
  case _ tr net _ _ =>
    dsimp only
    rcases hmax : maxScore? st.sotaScore with _ | high
    · obtain ⟨m, hm, _⟩ := lookup_le_maxScore st.sotaScore k v h
      rw [hmax] at hm
      cases hm
    · simp only [hmax]
      split_ifs with h1 h2 h3
      · exact ⟨v, h, le_refl _⟩
      · by_cases hk : k = tr.name
        · subst hk
          refine ⟨_, by rw [lookup_setScore_self], ?_⟩
          obtain ⟨m, hm, hvm⟩ := lookup_le_maxScore st.sotaScore _ v h
          rw [hmax] at hm
          have hmh : high = m := by injection hm
          rw [← hmh] at hvm
          linarith
        · exact ⟨v, by rw [lookup_setScore_ne _ _ _ _ hk]; exact h, le_refl _⟩
      · by_cases hk : k = tr.name
        · subst hk
          refine ⟨_, by rw [lookup_setScore_self], ?_⟩
          rw [h] at h3
          simp only [Option.map_some', Option.getD_some] at h3
          linarith
        · exact ⟨v, by rw [lookup_setScore_ne _ _ _ _ hk]; exact h, le_refl _⟩
      · exact ⟨v, h, le_refl _⟩
  case _ =>
    exact ⟨v, h, le_refl _⟩

/-- A single `endRun` never decreases any track's recorded best score. -/
theorem endRun_sota_monotone (s : CarState) (st : SettingsT) (now : ℚ)
    (k : String) (v : ScoreT) (h : lookupScore st.sotaScore k = some v) :
    ∃ v', lookupScore (endRun s st now).2.sotaScore k = some v' ∧
      v.score ≤ v'.score := by
  unfold endRun
  dsimp only
  exact endRunSettings_sota_monotone _ st now k v h

/-- Finalizing a whole generation never decreases any track's recorded best
score. -/
theorem endRunAll_sota_monotone :
    ∀ (cars : List CarState) (st : SettingsT) (now : ℚ) (k : String)
      (v : ScoreT), lookupScore st.sotaScore k = some v →
      ∃ v', lookupScore (endRunAll now cars st).2.sotaScore k = some v' ∧
        v.score ≤ v'.score
  | [], st, now, k, v, h => ⟨v, h, le_refl _⟩
  | c :: rest, st, now, k, v, h => by
    unfold endRunAll
    split_ifs with hai
    · dsimp only
      obtain ⟨v1, h1, le1⟩ := endRun_sota_monotone c st now k v h
      obtain ⟨v2, h2, le2⟩ :=
        endRunAll_sota_monotone rest (endRun c st now).2 now k v1 h1
      exact ⟨v2, h2, le_trans le1 le2⟩
    · dsimp only
      exact endRunAll_sota_monotone rest st now k v h

theorem isAI_of_name_manual (c : CarState) (h : c.name = "Manual") :
    isAI c = false := by
  simp [isAI, h]

theorem filter_isAI_map_replace (c : CarState) (hc : c.name = "Manual") :
    ∀ cars : List CarState,
      (cars.map fun x => if x.name == c.name then c else x).filter isAI =
        cars.filter isAI
  | [] => rfl
  | x :: t => by
    by_cases hx : (x.name == c.name) = true
    · have hxm : x.name = "Manual" := by rw [← hc]; exact eq_of_beq hx
      simp only [List.map_cons, hx, if_true, List.filter_cons,
        isAI_of_name_manual c hc, isAI_of_name_manual x hxm]
      exact filter_isAI_map_replace c hc t
    · have hx' : (x.name == c.name) = false := by simpa using hx
      simp only [List.map_cons, hx', Bool.false_eq_true, if_false,
        List.filter_cons]
      rw [filter_isAI_map_replace c hc t]
  termination_by cars => cars.length

theorem filter_isAI_upsert (cars : List CarState) (c : CarState)
    (hc : c.name = "Manual") :
    (upsertCar cars c).filter isAI = cars.filter isAI := by
  unfold upsertCar
  split_ifs with h
  · exact filter_isAI_map_replace c hc cars
  · rw [List.filter_append]
    simp [List.filter_cons, isAI_of_name_manual c hc]

theorem filter_isAI_removeCar :
    ∀ cars : List CarState,
      (removeCar cars "Manual").filter isAI = cars.filter isAI
  | [] => rfl
  | x :: t => by
    by_cases hx : (x.name == "Manual") = true
    · have h1 : removeCar (x :: t) "Manual" = removeCar t "Manual" := by
        unfold removeCar
        simp [List.filter_cons, hx]
      rw [h1, filter_isAI_removeCar t, List.filter_cons,
        isAI_of_name_manual x (eq_of_beq hx)]
      simp
    · have h1 : removeCar (x :: t) "Manual" = x :: removeCar t "Manual" := by
        unfold removeCar
        have hx' : (x.name == "Manual") = false := by simpa using hx
        simp [List.filter_cons, hx']
      rw [h1, List.filter_cons, List.filter_cons, filter_isAI_removeCar t]
  termination_by cars => cars.length

end Car

/-- C6: a `nextGeneration` call never decreases the persisted per-track best
score: the SOTA records change only through `endRun`'s finalization, which
overwrites a track's record only with a strictly greater score (either
beating the all-time maximum or the track's own record); across any sequence
of calls the recorded best is therefore monotonically non-decreasing. -/
theorem nextGeneration_sota_monotone (g : ℚ → ℚ → ℚ) (sqrtF : ℚ → ℚ)
    (rand : ℕ → ℚ) (tr : TrackT) (force : Bool) (now : ℚ)
    (cars : List CarState) (st : SettingsT) (k : String) (v : ScoreT)
    (h : Car.lookupScore st.sotaScore k = some v) :
    ∃ v', Car.lookupScore
        (Car.nextGeneration g sqrtF rand tr force now cars st).2.sotaScore k =
          some v' ∧ v.score ≤ v'.score := by
  unfold Car.nextGeneration
  dsimp only
  split_ifs <;>
    first
      | exact ⟨v, h, le_refl _⟩
      | exact Car.endRunAll_sota_monotone _ st now k v h

/-- Witness for C6 on a concrete settings state with a recorded track best. -/
theorem nextGeneration_sota_monotone_witness :
    let v : ScoreT :=
      { distance := 10, time := 5, laps := 1, success := false, score := 40 }
    let st : SettingsT :=
      { carWidth := 20, carHeight := 15, friction := 1/10, maxSpeed := 100,
        maxAcceleration := 25, maxSteering := 3/2, manualControl := false,
        numIterations := 0, numSimGlobalBest := 0, numSimTrackBest := 0,
        numSimTrackRandom := 0, sotaNet := ⟨1, [], 1, [[[0, 0]]]⟩,
        sotaScore := [("T", v)] }
    let tr : TrackT :=
      { name := "T", width := 800, height := 600, roadThickness := 30,
        startingAngle := 0, spX := 400, spY := 80, sdX := 1, sdY := 0 }
    Car.lookupScore st.sotaScore "T" = some v ∧
    ∃ v', Car.lookupScore
        (Car.nextGeneration (fun w _ => w) (fun x => x) (fun _ => 0)
          tr false 9000 [] st).2.sotaScore "T" = some v' ∧ v.score ≤ v'.score := by
  intro v st tr
  exact ⟨rfl, nextGeneration_sota_monotone (fun w _ => w) (fun x => x)
    (fun _ => 0) tr false 9000 [] st "T" v rfl⟩

/-- C5 (amended): `nextGeneration(track, force=false)` while an AI car on
`track` is still Racing leaves the AI car population, the iteration counter
and all persisted trainer state (the whole settings) unchanged — but it is
not a complete no-op on the car population: the manual-driver maintenance
runs *before* the early return and may create, replace or remove the
"Manual" car. -/
theorem nextGeneration_noop_amended (g : ℚ → ℚ → ℚ) (sqrtF : ℚ → ℚ)
    (rand : ℕ → ℚ) (tr : TrackT) (now : ℚ) (cars : List CarState)
    (st : SettingsT)
    (hrac : ((cars.filter Car.isAI).any fun c =>
      !c.collided && ((c.track.map fun t => t.name).getD "" == tr.name)) = true) :
    (Car.nextGeneration g sqrtF rand tr false now cars st).2 = st ∧
    (Car.nextGeneration g sqrtF rand tr false now cars st).1.filter Car.isAI =
      cars.filter Car.isAI := by
  have hup : (Car.upsertCar cars
      (Car.placeOnTrack (rand 0) tr (Car.newCar st "Manual"))).filter Car.isAI =
      cars.filter Car.isAI :=
    Car.filter_isAI_upsert cars _ rfl
  have hrm : (Car.removeCar cars "Manual").filter Car.isAI =
      cars.filter Car.isAI :=
    Car.filter_isAI_removeCar cars
  unfold Car.nextGeneration
  dsimp only
  split_ifs <;>
    first
      | exact ⟨rfl, hup⟩
      | exact ⟨rfl, hrm⟩
      | exact ⟨rfl, rfl⟩
      | simp_all [hup, hrm]

/-- Witness for C5's amended theorem: one racing AI car on the track. -/
theorem nextGeneration_noop_amended_witness :
    let tr : TrackT :=
      { name := "T", width := 800, height := 600, roadThickness := 30,
        startingAngle := 0, spX := 400, spY := 80, sdX := 1, sdY := 0 }
    let aiCar : CarState :=
      { name := "A", width := 20, height := 15, fudgeFactor := 1,
        track := some tr, posX := 400, posY := 80, angle := 0, speed := 10,
        steering := 0, acceleration := 1, odometer := 50, laps := 0,
        inCrossing := false, crossingDistance := 0, totalTicks := 2,
        startTime := 1000, endTime := 0, collided := false,
        pastTracking := [], net := some ⟨1, [], 1, [[[0, 0]]]⟩ }
    let st : SettingsT :=
      { carWidth := 20, carHeight := 15, friction := 1/10, maxSpeed := 100,
        maxAcceleration := 25, maxSteering := 3/2, manualControl := false,
        numIterations := 3, numSimGlobalBest := 4, numSimTrackBest := 4,
        numSimTrackRandom := 2, sotaNet := ⟨1, [], 1, [[[0, 0]]]⟩,
        sotaScore := [] }
    (((([aiCar] : List CarState).filter Car.isAI).any fun c =>
      !c.collided && ((c.track.map fun t => t.name).getD "" == tr.name)) = true) ∧
    ((Car.nextGeneration (fun w _ => w) (fun x => x) (fun _ => 0)
        tr false 9000 [aiCar] st).2 = st ∧
      (Car.nextGeneration (fun w _ => w) (fun x => x) (fun _ => 0)
        tr false 9000 [aiCar] st).1.filter Car.isAI =
        ([aiCar] : List CarState).filter Car.isAI) := by
  intro tr aiCar st
  exact ⟨rfl, nextGeneration_noop_amended (fun w _ => w) (fun x => x)
    (fun _ => 0) tr 9000 [aiCar] st rfl⟩

/-- C5 (counterexample): with manual control disabled and a leftover "Manual"
car in the registry, calling `nextGeneration(track, force=false)` while an AI
car is still Racing on `track` deletes the Manual car *before* the early
return, so the car population is not left unchanged (2 cars before, 1
after). -/
theorem nextGeneration_manual_mutation_counterexample :
    let tr : TrackT :=
      { name := "T", width := 800, height := 600, roadThickness := 30,
        startingAngle := 0, spX := 400, spY := 80, sdX := 1, sdY := 0 }
    let manualCar : CarState :=
      { name := "Manual", width := 20, height := 15, fudgeFactor := 0,
        track := some tr, posX := 400, posY := 80, angle := 0, speed := 0,
        steering := 0, acceleration := 0, odometer := 0, laps := 0,
        inCrossing := false, crossingDistance := 0, totalTicks := 0,
        startTime := 0, endTime := 0, collided := false, pastTracking := [],
        net := none }
    let aiCar : CarState :=
      { name := "A", width := 20, height := 15, fudgeFactor := 1,
        track := some tr, posX := 400, posY := 80, angle := 0, speed := 10,
        steering := 0, acceleration := 1, odometer := 50, laps := 0,
        inCrossing := false, crossingDistance := 0, totalTicks := 2,
        startTime := 1000, endTime := 0, collided := false,
        pastTracking := [], net := some ⟨1, [], 1, [[[0, 0]]]⟩ }
    let st : SettingsT :=
      { carWidth := 20, carHeight := 15, friction := 1/10, maxSpeed := 100,
        maxAcceleration := 25, maxSteering := 3/2, manualControl := false,
        numIterations := 3, numSimGlobalBest := 4, numSimTrackBest := 4,
        numSimTrackRandom := 2, sotaNet := ⟨1, [], 1, [[[0, 0]]]⟩,
        sotaScore := [] }
    (Car.nextGeneration (fun w _ => w) (fun x => x) (fun _ => 0)
        tr false 9000 [manualCar, aiCar] st).1 = [aiCar] ∧
    ([manualCar, aiCar] : List CarState).length = 2 ∧
    (Car.nextGeneration (fun w _ => w) (fun x => x) (fun _ => 0)
        tr false 9000 [manualCar, aiCar] st).1.length = 1 ∧
    (Car.nextGeneration (fun w _ => w) (fun x => x) (fun _ => 0)
        tr false 9000 [manualCar, aiCar] st).2 = st := by
  intro tr manualCar aiCar st
  exact ⟨rfl, rfl, rfl, rfl⟩

/-! ## Non-finite inputs (C8): an IEEE-style value domain

To settle the claims about NaN and infinite inputs, `Car.tick` is embedded a
second time over `JsNum`, which extends the exact finite values with NaN and
the two infinities and follows the IEEE-754 propagation rules (finite
arithmetic stays exact: rounding and overflow do not affect where NaN and
infinity appear in these theorems). -/

inductive JsNum where
  | nan : JsNum
  | posInf : JsNum
  | negInf : JsNum
  | fin : ℚ → JsNum
deriving Repr, DecidableEq

namespace JsNum

def add : JsNum → JsNum → JsNum
  | nan, _ => nan
  | _, nan => nan
  | posInf, negInf => nan
  | negInf, posInf => nan
  | posInf, _ => posInf
  | _, posInf => posInf
  | negInf, _ => negInf
  | _, negInf => negInf
  | fin a, fin b => fin (a + b)

def neg : JsNum → JsNum
  | nan => nan
  | posInf => negInf
  | negInf => posInf
  | fin a => fin (-a)

def sub (a b : JsNum) : JsNum := add a (neg b)

def mul : JsNum → JsNum → JsNum
  | nan, _ => nan
  | _, nan => nan
  | posInf, posInf => posInf
  | posInf, negInf => negInf
  | negInf, posInf => negInf
  | negInf, negInf => posInf
  | posInf, fin b => if b > 0 then posInf else if b < 0 then negInf else nan
  | fin a, posInf => if a > 0 then posInf else if a < 0 then negInf else nan
  | negInf, fin b => if b > 0 then negInf else if b < 0 then posInf else nan
  | fin a, negInf => if a > 0 then negInf else if a < 0 then posInf else nan
  | fin a, fin b => fin (a * b)

def div : JsNum → JsNum → JsNum
  | nan, _ => nan
  | _, nan => nan
  | posInf, posInf => nan
  | posInf, negInf => nan
  | negInf, posInf => nan
  | negInf, negInf => nan
  | posInf, fin b => if b ≥ 0 then posInf else negInf
  | negInf, fin b => if b ≥ 0 then negInf else posInf
  | fin _, posInf => fin 0
  | fin _, negInf => fin 0
  | fin a, fin b =>
    if b = 0 then (if a = 0 then nan else if a > 0 then posInf else negInf)
    else fin (a / b)

/-- Model of `<` — false whenever either side is NaN. -/
def lt : JsNum → JsNum → Bool
  | nan, _ => false
  | _, nan => false
  | posInf, _ => false
  | negInf, negInf => false
  | negInf, _ => true
  | fin _, posInf => true
  | fin _, negInf => false
  | fin a, fin b => decide (a < b)

/-- Model of `≤` — false whenever either side is NaN. -/
def le : JsNum → JsNum → Bool
  | nan, _ => false
  | _, nan => false
  | negInf, _ => true
  | posInf, posInf => true
  | posInf, _ => false
  | fin _, posInf => true
  | fin _, negInf => false
  | fin a, fin b => decide (a ≤ b)

def gt (a b : JsNum) : Bool := lt b a

def ge (a b : JsNum) : Bool := le b a

def isNaN : JsNum → Bool
  | nan => true
  | _ => false

/-- JavaScript falsiness of a number: `0` and `NaN` (relevant to
`endTime || now`). -/
def falsy : JsNum → Bool
  | nan => true
  | fin q => decide (q = 0)
  | _ => false

/-- Model of `Math.abs`. -/
def absJ : JsNum → JsNum
  | nan => nan
  | posInf => posInf
  | negInf => posInf
  | fin a => fin |a|

/-- Model of `Math.sign`: NaN for NaN, ±1 for the infinities. -/
def signJ : JsNum → JsNum
  | nan => nan
  | posInf => fin 1
  | negInf => fin (-1)
  | fin a => fin (jsSign a)

/-- Model of `Math.max` of two values: NaN if either side is NaN. -/
def maxJ : JsNum → JsNum → JsNum
  | nan, _ => nan
  | _, nan => nan
  | posInf, _ => posInf
  | _, posInf => posInf
  | negInf, b => b
  | a, negInf => a
  | fin a, fin b => fin (max a b)

/-- Model of `clamp` over JsNum, exactly as in src/utils/clamp: the NaN test comes
first, so a NaN input returns the lower bound. -/
def clampJ (n min max : JsNum) : JsNum :=
  if n.isNaN then min else if lt n min then min else if gt n max then max
  else n

end JsNum

/-- The car state over `JsNum` (the fields `Car.tick` touches). -/
structure JsCarState where
  name : String
  width : JsNum
  height : JsNum
  hasTrack : Bool
  posX : JsNum
  posY : JsNum
  angle : JsNum
  speed : JsNum
  steering : JsNum
  acceleration : JsNum
  odometer : JsNum
  laps : ℕ
  inCrossing : Bool
  crossingDistance : JsNum
  totalTicks : JsNum
  startTime : JsNum
  endTime : JsNum
  collided : Bool
  pastTracking : List (JsNum × JsNum)
deriving Repr, DecidableEq

/-- The score record over `JsNum` (fields used by `tick`). -/
structure JsScore where
  distance : JsNum
  time : JsNum
  laps : ℕ
  score : JsNum
deriving Repr, DecidableEq

namespace Car

open JsNum

/-- Model of `Car.score` over `JsNum` (note `endTime || now` and `startTime || now`
test JS falsiness, which includes NaN). -/
def scoreJ (s : JsCarState) (now : JsNum) : JsScore :=
  let distance := div s.odometer (maxJ s.width s.height)
  let time := div (sub (if falsy s.endTime then now else s.endTime)
    (if falsy s.startTime then now else s.startTime)) (fin 1000)
  { distance := distance
    time := time
    laps := s.laps
    score := if gt s.startTime (fin 0)
      then add (maxJ (fin 0) (sub distance time)) (fin (((s.laps : ℚ) + 1) ^ 2 * 10))
      else fin 0 }

/-- The eviction / success test of `Car.tick` over `JsNum`. -/
def jtickEarlyEnd (s : JsCarState) (now : JsNum) : Bool :=
  let sc := scoreJ s now
  lt sc.score (fin (-10)) || (gt s.totalTicks (fin 3) && le sc.score (fin 0)) ||
  (gt s.totalTicks (fin 3) && le sc.score (div sc.time (fin 2))) ||
  decide (3 ≤ sc.laps)

/-- The car-state part of `Car.endRun()` over `JsNum` (the SOTA persistence
side effect is modelled in the exact embedding above). -/
def endRunJ (s : JsCarState) (now : JsNum) : JsCarState :=
  { s with endTime := now
           startTime := if falsy s.startTime then now else s.startTime
           inCrossing := false
           crossingDistance := fin 0
           collided := true }

/-- Model of `Car.manualControl()` over `JsNum`. -/
def jmanualControl (keyF : String → Bool) (s : JsCarState) : JsCarState :=
  let acc :=
    if keyF "ArrowDown" || keyF "S" then
      clampJ (sub s.acceleration (fin (1/10))) (fin (-1)) (fin (-1/10))
    else if keyF "ArrowUp" || keyF "W" then
      clampJ (add s.acceleration (fin (1/10))) (fin (1/10)) (fin 1)
    else fin 0
  let steer :=
    if keyF "ArrowLeft" || keyF "A" then
      clampJ (sub s.steering (fin (1/10))) (fin (-1)) (fin (-1/10))
    else if keyF "ArrowRight" || keyF "D" then
      clampJ (add s.steering (fin (1/10))) (fin (1/10)) (fin 1)
    else fin 0
  { s with acceleration := acc, steering := steer }

/-- The steering step of `Car.tick` over `JsNum`: note that `dt` is used
unchecked in the three multiplications. -/
def jsteeringPhase (friction maxSteering dt : JsNum) (s : JsCarState) :
    JsCarState :=
  let st1 := clampJ s.steering (fin (-1)) (fin 1)
  let st2 := clampJ st1 (neg s.speed) s.speed
  let s1 :=
    if ge (absJ st2) (fin (1/100)) then
      { s with angle := add s.angle (mul (mul maxSteering st2) dt),
               steering := sub st2 (mul (mul friction (signJ st2)) dt),
               speed := sub s.speed (mul (mul friction s.speed) dt) }
    else { s with steering := st2 }
  { s1 with angle :=
      if (gt s1.angle (fin jsPI)) then sub s1.angle (mul (fin jsPI) (fin 2))
      else if (lt s1.angle (fin (-jsPI))) then add s1.angle (mul (fin jsPI) (fin 2))
      else s1.angle }

/-- The acceleration step over `JsNum`; only the final speed is re-clamped
(`clamp` maps NaN to the lower bound 0). -/
def jaccelPhase (friction maxAcceleration maxSpeed dt : JsNum)
    (s : JsCarState) : JsCarState :=
  let a1 := clampJ s.acceleration (fin (-1)) (fin 1)
  let s1 :=
    if ge (absJ a1) (fin (1/100)) then
      { s with speed := add s.speed (mul (mul maxAcceleration a1) dt),
               acceleration := sub a1 (mul (mul friction (signJ a1)) dt) }
    else { s with speed := sub s.speed (mul (mul friction s.speed) dt),
                  acceleration := a1 }
  { s1 with speed := clampJ s1.speed (fin 0) maxSpeed }

/-- The movement step over `JsNum`: position and odometer integrate with the
raw `dt`. -/
def jmovePhase (cosF sinF : JsNum → JsNum) (dt : JsNum) (s : JsCarState) :
    JsCarState :=
  { s with posX := add s.posX (mul (mul (cosF s.angle) s.speed) dt),
           posY := add s.posY (mul (mul (sinF s.angle) s.speed) dt),
           odometer := add s.odometer (mul s.speed dt) }

/-- The out-of-canvas test over `JsNum` (false on NaN positions). -/
def joutOfBounds (trWidth trHeight : JsNum) (s : JsCarState) : Bool :=
  le s.posX (fin 0) || ge s.posX trWidth || le s.posY (fin 0) ||
  ge s.posY trHeight

/-- The backtrack-guard step over `JsNum`. -/
def jtrackingPhase (hypotF : JsNum → JsNum → JsNum) (roadThickness : JsNum)
    (s : JsCarState) : Option JsCarState :=
  let trackingRadius := maxJ (maxJ s.width s.height) roadThickness
  let dists := s.pastTracking.map fun p =>
    hypotF (sub p.1 s.posX) (sub p.2 s.posY)
  if dists.length = 0 || dists.all fun d => gt d trackingRadius then
    let pt := (s.posX, s.posY) :: s.pastTracking
    some { s with pastTracking := if pt.length > 3 then pt.dropLast else pt }
  else if decide (dists.length > 1) &&
      ((dists.drop 1).any fun d => lt d trackingRadius) then
    none
  else some s

/-- The integration part of `Car.tick` over `JsNum`. -/
def jtickPhysics (cosF sinF : JsNum → JsNum) (hypotF : JsNum → JsNum → JsNum)
    (friction maxSteering maxAcceleration maxSpeed trWidth trHeight
      roadThickness : JsNum) (now dt : JsNum) (s0 : JsCarState) : JsCarState :=
  let s1 := { s0 with totalTicks := add s0.totalTicks dt }
  let s2 := jsteeringPhase friction maxSteering dt s1
  let s3 := jaccelPhase friction maxAcceleration maxSpeed dt s2
  let s4 := jmovePhase cosF sinF dt s3
  if (joutOfBounds trWidth trHeight s4) then endRunJ s4 now
  else match jtrackingPhase hypotF roadThickness s4 with
    | none => endRunJ s4 now
    | some s5 => s5

/-- Model of `Car.tick(dt)` over `JsNum`. -/
def jtick (keyF : String → Bool) (cosF sinF : JsNum → JsNum)
    (hypotF : JsNum → JsNum → JsNum)
    (friction maxSteering maxAcceleration maxSpeed trWidth trHeight
      roadThickness : JsNum) (now dt : JsNum) (s : JsCarState) : JsCarState :=
  if s.collided || !s.hasTrack then s
  else if s.name = "Manual" then
    jtickPhysics cosF sinF hypotF friction maxSteering maxAcceleration
      maxSpeed trWidth trHeight roadThickness now dt (jmanualControl keyF s)
  else if (jtickEarlyEnd s now) then endRunJ s now
  else jtickPhysics cosF sinF hypotF friction maxSteering maxAcceleration
    maxSpeed trWidth trHeight roadThickness now dt s

end Car

/-- The final speed clamp is fully defensive: whatever JsNum reaches it —
NaN, ±∞ or any finite value — the result is a finite value in
`[0, maxSpeed]`. -/
theorem clampJ_fin_mem (x : JsNum) (M : ℚ) (hM : 0 ≤ M) :
    ∃ q, JsNum.clampJ x (JsNum.fin 0) (JsNum.fin M) = JsNum.fin q ∧
      0 ≤ q ∧ q ≤ M := by
  cases x with
  | nan => exact ⟨0, rfl, le_refl 0, hM⟩
  | posInf => exact ⟨M, rfl, hM, le_refl M⟩
  | negInf => exact ⟨0, rfl, le_refl 0, hM⟩
  | fin a =>
    unfold JsNum.clampJ
    simp only [JsNum.isNaN, JsNum.lt, JsNum.gt, Bool.false_eq_true, if_false]
    split_ifs with h1 h2
    · exact ⟨0, rfl, le_refl 0, hM⟩
    · exact ⟨M, rfl, hM, le_refl M⟩
    · simp only [decide_eq_true_eq] at h1 h2
      exact ⟨a, rfl, not_lt.mp h1, not_lt.mp h2⟩

theorem jaccelPhase_speed_mem (friction maxAcceleration dt : JsNum) (M : ℚ)
    (hM : 0 ≤ M) (s : JsCarState) :
    ∃ q, (Car.jaccelPhase friction maxAcceleration (JsNum.fin M) dt s).speed =
      JsNum.fin q ∧ 0 ≤ q ∧ q ≤ M := by
  unfold Car.jaccelPhase
  dsimp only
  exact clampJ_fin_mem _ M hM

theorem jtrackingPhase_some_speed (hypotF : JsNum → JsNum → JsNum)
    (roadThickness : JsNum) (s s' : JsCarState)
    (h : Car.jtrackingPhase hypotF roadThickness s = some s') :
    s'.speed = s.speed := by
  unfold Car.jtrackingPhase at h
  dsimp only at h
  split_ifs at h <;> (try cases h) <;> rfl

theorem jtickPhysics_speed (cosF sinF : JsNum → JsNum)
    (hypotF : JsNum → JsNum → JsNum)
    (friction maxSteering maxAcceleration trWidth trHeight roadThickness
      now dt : JsNum) (M : ℚ) (hM : 0 ≤ M) (s0 : JsCarState) :
    ∃ q, (Car.jtickPhysics cosF sinF hypotF friction maxSteering
        maxAcceleration (JsNum.fin M) trWidth trHeight roadThickness
        now dt s0).speed = JsNum.fin q ∧ 0 ≤ q ∧ q ≤ M := by
  unfold Car.jtickPhysics
  dsimp only
  obtain ⟨q, hq, h0, h1⟩ := jaccelPhase_speed_mem friction maxAcceleration dt
    M hM (Car.jsteeringPhase friction maxSteering dt
      { s0 with totalTicks := JsNum.add s0.totalTicks dt })
  set s3 := Car.jaccelPhase friction maxAcceleration (JsNum.fin M) dt
    (Car.jsteeringPhase friction maxSteering dt
      { s0 with totalTicks := JsNum.add s0.totalTicks dt }) with hs3
  split_ifs with hob
  · exact ⟨q, hq, h0, h1⟩
  · rcases htp : Car.jtrackingPhase hypotF roadThickness
        (Car.jmovePhase cosF sinF dt s3) with _ | s5
    · simp only [htp]
      exact ⟨q, hq, h0, h1⟩
    · simp only [htp]
      rw [jtrackingPhase_some_speed hypotF roadThickness _ _ htp]
      exact ⟨q, hq, h0, h1⟩

/-- C8 (amended): `tick` does *not* clamp `dt`, and a NaN `dt` reaches the
integration unchecked (see the counterexample: it corrupts position and
odometer); what the defensive clamping does guarantee is that (a) the
steering/acceleration/speed values entering the step are clamped first, with
`clamp` mapping NaN to the lower bound, and (b) the post-integration speed is
re-clamped, so the speed field always leaves `tick`'s integration path as a
finite value in `[0, maxSpeed]`, whatever non-finite values the state or `dt`
contain; no path throws. -/
theorem jtick_speed_defensive (keyF : String → Bool)
    (cosF sinF : JsNum → JsNum) (hypotF : JsNum → JsNum → JsNum)
    (friction maxSteering maxAcceleration trWidth trHeight roadThickness
      now dt : JsNum) (M : ℚ) (hM : 0 ≤ M) (s : JsCarState)
    (hc : s.collided = false) (ht : s.hasTrack = true)
    (hpath : s.name = "Manual" ∨ Car.jtickEarlyEnd s now = false) :
    (∃ q, (Car.jtick keyF cosF sinF hypotF friction maxSteering
        maxAcceleration (JsNum.fin M) trWidth trHeight roadThickness
        now dt s).speed = JsNum.fin q ∧ 0 ≤ q ∧ q ≤ M) ∧
    (∀ mn mx : ℚ, JsNum.clampJ JsNum.nan (JsNum.fin mn) (JsNum.fin mx) =
      JsNum.fin mn) := by
  refine ⟨?_, fun mn mx => rfl⟩
  unfold Car.jtick
  rw [hc, ht]
  simp only [Bool.not_true, Bool.or_self, Bool.false_eq_true, if_false]
  split_ifs with hname hearly
  · exact jtickPhysics_speed cosF sinF hypotF friction maxSteering
      maxAcceleration trWidth trHeight roadThickness now dt M hM
      (Car.jmanualControl keyF s)
  · rcases hpath with hl | hr
    · exact absurd hl hname
    · rw [hearly] at hr
      cases hr
  · exact jtickPhysics_speed cosF sinF hypotF friction maxSteering
      maxAcceleration trWidth trHeight roadThickness now dt M hM s

/-- Witness for C8's amended theorem: a concrete racing car ticked with
`dt = NaN` still leaves with a finite speed in `[0, 100]`. -/
theorem jtick_speed_defensive_witness :
    let s : JsCarState :=
      { name := "A", width := JsNum.fin 20, height := JsNum.fin 15,
        hasTrack := true, posX := JsNum.fin 100, posY := JsNum.fin 100,
        angle := JsNum.fin 0, speed := JsNum.fin 1, steering := JsNum.fin 0,
        acceleration := JsNum.fin 0, odometer := JsNum.fin 0, laps := 0,
        inCrossing := false, crossingDistance := JsNum.fin 0,
        totalTicks := JsNum.fin 0, startTime := JsNum.fin 0,
        endTime := JsNum.fin 0, collided := false, pastTracking := [] }
    (0 : ℚ) ≤ 100 ∧ s.collided = false ∧ s.hasTrack = true ∧
    ((∃ q, (Car.jtick (fun _ => false) (fun _ => JsNum.fin 1)
        (fun _ => JsNum.fin 1) (fun _ _ => JsNum.fin 0) (JsNum.fin (1/10))
        (JsNum.fin (3/2)) (JsNum.fin 25) (JsNum.fin 100) (JsNum.fin 800)
        (JsNum.fin 600) (JsNum.fin 30) (JsNum.fin 5000) JsNum.nan s).speed =
          JsNum.fin q ∧ 0 ≤ q ∧ q ≤ 100) ∧
      (∀ mn mx : ℚ, JsNum.clampJ JsNum.nan (JsNum.fin mn) (JsNum.fin mx) =
        JsNum.fin mn)) := by
  intro s
  refine ⟨by norm_num, rfl, rfl, ?_⟩
  refine jtick_speed_defensive (fun _ => false) (fun _ => JsNum.fin 1)
    (fun _ => JsNum.fin 1) (fun _ _ => JsNum.fin 0) (JsNum.fin (1/10))
    (JsNum.fin (3/2)) (JsNum.fin 25) (JsNum.fin 800) (JsNum.fin 600)
    (JsNum.fin 30) (JsNum.fin 5000) JsNum.nan 100 (by norm_num) s rfl rfl
    (Or.inr ?_)
  unfold Car.jtickEarlyEnd Car.scoreJ
  norm_num [JsNum.falsy, JsNum.div, JsNum.sub, JsNum.add, JsNum.neg,
    JsNum.maxJ, JsNum.gt, JsNum.lt, JsNum.le]

/-- C8 (counterexample): `tick` never sanitizes `dt`.  Ticking the concrete
Racing car above with `dt = NaN` propagates NaN into the position and the
odometer (the bounds tests are all false on NaN, so the run does not even
end), contradicting the claim that non-finite inputs are clamped at every
integration step and never reach position or odometer; only the speed is
rescued by its final clamp. -/
theorem jtick_nan_dt_propagates :
    let s : JsCarState :=
      { name := "A", width := JsNum.fin 20, height := JsNum.fin 15,
        hasTrack := true, posX := JsNum.fin 100, posY := JsNum.fin 100,
        angle := JsNum.fin 0, speed := JsNum.fin 1, steering := JsNum.fin 0,
        acceleration := JsNum.fin 0, odometer := JsNum.fin 0, laps := 0,
        inCrossing := false, crossingDistance := JsNum.fin 0,
        totalTicks := JsNum.fin 0, startTime := JsNum.fin 0,
        endTime := JsNum.fin 0, collided := false, pastTracking := [] }
    (Car.jtick (fun _ => false) (fun _ => JsNum.fin 1) (fun _ => JsNum.fin 1)
        (fun _ _ => JsNum.fin 0) (JsNum.fin (1/10)) (JsNum.fin (3/2))
        (JsNum.fin 25) (JsNum.fin 100) (JsNum.fin 800) (JsNum.fin 600)
        (JsNum.fin 30) (JsNum.fin 5000) JsNum.nan s).posX = JsNum.nan ∧
    (Car.jtick (fun _ => false) (fun _ => JsNum.fin 1) (fun _ => JsNum.fin 1)
        (fun _ _ => JsNum.fin 0) (JsNum.fin (1/10)) (JsNum.fin (3/2))
        (JsNum.fin 25) (JsNum.fin 100) (JsNum.fin 800) (JsNum.fin 600)
        (JsNum.fin 30) (JsNum.fin 5000) JsNum.nan s).odometer = JsNum.nan ∧
    (Car.jtick (fun _ => false) (fun _ => JsNum.fin 1) (fun _ => JsNum.fin 1)
        (fun _ _ => JsNum.fin 0) (JsNum.fin (1/10)) (JsNum.fin (3/2))
        (JsNum.fin 25) (JsNum.fin 100) (JsNum.fin 800) (JsNum.fin 600)
        (JsNum.fin 30) (JsNum.fin 5000) JsNum.nan s).collided = false := by
  intro s
  unfold Car.jtick
  norm_num [Car.jtickEarlyEnd, Car.scoreJ, Car.jtickPhysics,
    Car.jsteeringPhase, Car.jaccelPhase, Car.jmovePhase, Car.joutOfBounds,
    Car.jtrackingPhase, Car.endRunJ, Car.jmanualControl, JsNum.falsy,
    JsNum.div, JsNum.sub, JsNum.add, JsNum.neg, JsNum.maxJ, JsNum.gt,
    JsNum.lt, JsNum.le, JsNum.ge, JsNum.mul, JsNum.clampJ, JsNum.isNaN,
    JsNum.absJ, JsNum.signJ, jsSign, jsPI]

end IdleSelfDriving
